import Mathlib

set_option autoImplicit false

/-!
Verification development for the prompt-versioning and dataset subsystems of a
multi-tenant worker backend.

The TypeScript services and repositories are shallowly embedded: each durable
table becomes a Lean list of rows, each repository query becomes a list
operation whose predicate mirrors the SQL where-clause, and each service
method becomes a function on an explicit store value.  Fallible service
methods return `Except String`, carrying the literal error message thrown by
the source.  Timestamps are not modeled except for the `createdAt` ordering
key on dataset records.  JavaScript dynamic values (record payloads, parsed
schema documents) are modeled by the `Json` inductive together with helpers
that mirror the JavaScript operators used by the source (`typeof`,
truthiness, property access, `Object.entries`, template-literal number
printing, `JSON.parse`).
-/

/-- Model of a JavaScript/JSON value as produced by `JSON.parse`. -/
inductive Json where
  | null
  | bool (b : Bool)
  | num (n : Int)
  | str (s : String)
  | arr (elems : List Json)
  | obj (kvs : List (String × Json))

/-- Model of the decimal rendering of a natural number, as produced by a
JavaScript template literal for a nonnegative integer.  Fuel-based so that it
reduces definitionally; the fuel `n + 1` always suffices. -/
def natDigitsRevAux : Nat → Nat → List Char
  | 0, _ => []
  | fuel+1, n =>
    if n < 10 then [Nat.digitChar n]
    else Nat.digitChar (n % 10) :: natDigitsRevAux fuel (n / 10)

/-- Decimal string of a natural number (JavaScript `${n}` for `n ≥ 0`). -/
def natRepr (n : Nat) : String := ⟨(natDigitsRevAux (n + 1) n).reverse⟩

/-- Decimal string of an integer (JavaScript `String(n)`). -/
def intRepr (n : Int) : String :=
  if n < 0 then "-" ++ natRepr n.natAbs else natRepr n.toNat

/-- Numeric value of a decimal digit character. -/
def digitVal (c : Char) : Nat := c.toNat - 48

/-- Value of a little-endian digit list; inverse of `natDigitsRevAux`. -/
def digitsValRev : List Char → Nat
  | [] => 0
  | c :: cs => digitVal c + 10 * digitsValRev cs

theorem digitVal_digitChar (n : Nat) (h : n < 10) : digitVal (Nat.digitChar n) = n := by
  interval_cases n <;> decide

theorem digitsValRev_natDigitsRevAux (fuel : Nat) :
    ∀ n, n < 10 ^ fuel → digitsValRev (natDigitsRevAux fuel n) = n := by
  induction fuel with
  | zero => intro n h; interval_cases n; decide
  | succ fuel ih =>
    intro n h
    rw [natDigitsRevAux]
    by_cases h10 : n < 10
    · simp [h10, digitsValRev, digitVal_digitChar n h10]
    · simp only [h10, if_false]
      rw [digitsValRev, digitVal_digitChar (n % 10) (Nat.mod_lt _ (by omega)), ih (n / 10)]
      · omega
      · rw [Nat.div_lt_iff_lt_mul (by omega)]
        calc n < 10 ^ (fuel + 1) := h
          _ = 10 ^ fuel * 10 := by ring

theorem digitsValRev_natRepr (n : Nat) : digitsValRev ((natRepr n).data.reverse) = n := by
  show digitsValRev ((natDigitsRevAux (n + 1) n).reverse.reverse) = n
  rw [List.reverse_reverse]
  apply digitsValRev_natDigitsRevAux
  calc n < 10 ^ n := Nat.lt_pow_self (by omega) n
    _ ≤ 10 ^ (n + 1) := Nat.pow_le_pow_right (by omega) (by omega)

theorem natRepr_injective : Function.Injective natRepr := by
  intro a b h
  have ha := digitsValRev_natRepr a
  rw [h, digitsValRev_natRepr] at ha
  omega

/-- JavaScript `typeof` on a `Json` value (`typeof null` is `"object"`). -/
def jsTypeof : Json → String
  | .null => "object"
  | .bool _ => "boolean"
  | .num _ => "number"
  | .str _ => "string"
  | .arr _ => "object"
  | .obj _ => "object"

/-- JavaScript truthiness of a `Json` value. -/
def jsTruthy : Json → Bool
  | .null => false
  | .bool b => b
  | .num n => n != 0
  | .str s => s != ""
  | .arr _ => true
  | .obj _ => true

/-- First-match association-list read; models reading a key of a JavaScript
object (whose keys are unique). -/
def getk {β : Type} : List (String × β) → String → Option β
  | [], _ => none
  | (k0, v0) :: rest, k => if k0 = k then some v0 else getk rest k

/-- In-place-update-or-append write; models JavaScript property assignment
`o[k] = v` (updates an existing key in place, appends a new key). -/
def setk {β : Type} : List (String × β) → String → β → List (String × β)
  | [], k, v => [(k, v)]
  | (k0, v0) :: rest, k, v =>
    if k0 = k then (k, v) :: rest else (k0, v0) :: setk rest k v

/-- JavaScript property access `o[k]`: `none` models `undefined`. -/
def jsProp : Json → String → Option Json
  | .obj kvs, k => getk kvs k
  | _, _ => none

/-- Property access that yields a string, or `none` when the property is
absent or not a string (so equality with a string literal matches strict
`===` comparison in the source). -/
def jsStrProp (v : Json) (k : String) : Option String :=
  match jsProp v k with
  | some (.str s) => some s
  | _ => none

/-- JavaScript `Object.entries`: object key/value pairs, or index/element
pairs for an array. -/
def jsEntries : Json → List (String × Json)
  | .obj kvs => kvs
  | .arr xs => (xs.enum).map (fun p => (natRepr p.1, p.2))
  | _ => []

/-- Whitespace skipping for the `JSON.parse` model. -/
def skipWs : List Char → List Char
  | [] => []
  | c :: cs => if c = ' ' ∨ c = '\n' ∨ c = '\t' ∨ c = '\r' then skipWs cs else c :: cs

/-- String-literal body scanner for the `JSON.parse` model (no escape
sequences; an escape makes the parse fail, erring on the side of treating the
document as invalid). -/
def parseStrChars : List Char → Option (List Char × List Char)
  | [] => none
  | c :: cs =>
    if c = '"' then some ([], cs)
    else if c = '\\' then none
    else match parseStrChars cs with
      | some (acc, rest) => some (c :: acc, rest)
      | none => none

/-- Longest digit run at the head of the input. -/
def takeDigits : List Char → List Char × List Char
  | [] => ([], [])
  | c :: cs =>
    if c.isDigit then
      let p := takeDigits cs
      (c :: p.1, p.2)
    else ([], c :: cs)

/-- Value of a big-endian digit list. -/
def digitsToNat (ds : List Char) : Nat := ds.foldl (fun acc c => acc * 10 + digitVal c) 0

mutual
/-- Recursive-descent value parser for the `JSON.parse` model (integer
numerals only; a fractional or exponent part makes the parse fail). -/
def parseJsonVal : Nat → List Char → Option (Json × List Char)
  | 0, _ => none
  | fuel+1, cs =>
    match skipWs cs with
    | [] => none
    | c :: rest =>
      if c = 'n' then
        match rest with
        | 'u' :: 'l' :: 'l' :: rest2 => some (.null, rest2)
        | _ => none
      else if c = 't' then
        match rest with
        | 'r' :: 'u' :: 'e' :: rest2 => some (.bool true, rest2)
        | _ => none
      else if c = 'f' then
        match rest with
        | 'a' :: 'l' :: 's' :: 'e' :: rest2 => some (.bool false, rest2)
        | _ => none
      else if c = '"' then
        match parseStrChars rest with
        | some (sc, rest2) => some (.str ⟨sc⟩, rest2)
        | none => none
      else if c = '[' then
        match skipWs rest with
        | ']' :: rest2 => some (.arr [], rest2)
        | rest2 => parseJsonElems fuel rest2 []
      else if c = '{' then
        match skipWs rest with
        | '}' :: rest2 => some (.obj [], rest2)
        | rest2 => parseJsonMembers fuel rest2 []
      else if c = '-' then
        match takeDigits rest with
        | ([], _) => none
        | (ds, rest2) => some (.num (-(digitsToNat ds : Int)), rest2)
      else if c.isDigit then
        match takeDigits (c :: rest) with
        | (ds, rest2) => some (.num (digitsToNat ds), rest2)
      else none

/-- Array-element loop of the `JSON.parse` model. -/
def parseJsonElems : Nat → List Char → List Json → Option (Json × List Char)
  | 0, _, _ => none
  | fuel+1, cs, acc =>
    match parseJsonVal fuel cs with
    | none => none
    | some (v, rest) =>
      match skipWs rest with
      | ',' :: rest2 => parseJsonElems fuel rest2 (acc ++ [v])
      | ']' :: rest2 => some (.arr (acc ++ [v]), rest2)
      | _ => none

/-- Object-member loop of the `JSON.parse` model. -/
def parseJsonMembers : Nat → List Char → List (String × Json) → Option (Json × List Char)
  | 0, _, _ => none
  | fuel+1, cs, acc =>
    match skipWs cs with
    | '"' :: rest =>
      match parseStrChars rest with
      | none => none
      | some (kc, rest2) =>
        match skipWs rest2 with
        | ':' :: rest3 =>
          match parseJsonVal fuel rest3 with
          | none => none
          | some (v, rest4) =>
            match skipWs rest4 with
            | ',' :: rest5 => parseJsonMembers fuel rest5 (acc ++ [(⟨kc⟩, v)])
            | '}' :: rest5 => some (.obj (acc ++ [(⟨kc⟩, v)]), rest5)
            | _ => none
        | _ => none
    | _ => none
end

/-- Model of `JSON.parse`: `none` models a thrown `SyntaxError`. -/
def parseJson (s : String) : Option Json :=
  match parseJsonVal (s.length + 1) s.data with
  | some (v, rest) => if skipWs rest = [] then some v else none
  | none => none

mutual
/-- Model of `JSON.stringify` on a `Json` value (no escaping inside strings,
matching the restriction of the string parser above). -/
def stringifyJson : Json → String
  | .null => "null"
  | .bool true => "true"
  | .bool false => "false"
  | .num n => intRepr n
  | .str s => "\"" ++ s ++ "\""
  | .arr xs => "[" ++ stringifyJsonList xs ++ "]"
  | .obj kvs => "\x7b" ++ stringifyJsonMembers kvs ++ "\x7d"

/-- Comma-joined rendering of array elements. -/
def stringifyJsonList : List Json → String
  | [] => ""
  | [x] => stringifyJson x
  | x :: rest => stringifyJson x ++ "," ++ stringifyJsonList rest

/-- Comma-joined rendering of object members. -/
def stringifyJsonMembers : List (String × Json) → String
  | [] => ""
  | [(k, v)] => "\"" ++ k ++ "\":" ++ stringifyJson v
  | (k, v) :: rest => "\"" ++ k ++ "\":" ++ stringifyJson v ++ "," ++ stringifyJsonMembers rest
end

/-! ## Tenancy scope value objects (`shared/project-id.ts`, `shared/entity-id.ts`) -/

/-- Value object `ProjectId {id, tenantId, userId}`. -/
structure ProjectId where
  id : Nat
  tenantId : Nat
  userId : String
deriving DecidableEq

/-- Value object `EntityId<number>` carrying the row id plus the tenancy
scope; its `toWhereClause` conjoins `tenantId`, `projectId` and `id`. -/
structure EntityId where
  id : Nat
  projectId : Nat
  tenantId : Nat
  userId : String
deriving DecidableEq

/-- `EntityId.getProjectId` from the source. -/
def EntityId.getProjectId (e : EntityId) : ProjectId :=
  ⟨e.projectId, e.tenantId, e.userId⟩

/-! ## Prompt data model (`db/schema.ts` rows, as used by the repository) -/

/-- Head row of a content entity (`Prompts` table). -/
structure Prompt where
  id : Nat
  tenantId : Nat
  projectId : Nat
  name : String
  slug : String
  provider : String
  model : String
  body : String
  latestVersion : Nat
  isActive : Bool
deriving DecidableEq

/-- Immutable ledger row (`PromptVersions` table). -/
structure PromptVersion where
  id : Nat
  promptId : Nat
  tenantId : Nat
  projectId : Nat
  version : Nat
  name : String
  provider : String
  model : String
  body : String
  slug : String
deriving DecidableEq

/-- Active-version router row (`PromptRouters` table). -/
structure PromptRouter where
  id : Nat
  promptId : Nat
  tenantId : Nat
  projectId : Nat
  version : Nat
deriving DecidableEq

/-- The durable prompt-side state: one list per table plus the autoincrement
counters of the three tables. -/
structure PromptStore where
  prompts : List Prompt
  promptVersions : List PromptVersion
  promptRouters : List PromptRouter
  nextPromptId : Nat
  nextVersionId : Nat
  nextRouterId : Nat
deriving DecidableEq

/-! ## Prompt repository (`prompt.repository.ts`) -/

/-- Where-clause of `EntityId.toWhereClause` applied to the `Prompts` table. -/
def promptWhere (e : EntityId) (p : Prompt) : Bool :=
  p.tenantId == e.tenantId && p.projectId == e.projectId && p.id == e.id

/-- `PromptRepository.findPromptById`. -/
def findPromptById (st : PromptStore) (e : EntityId) : Option Prompt :=
  st.prompts.find? (promptWhere e)

/-- `PromptRepository.findPromptBySlug`: scope-conjoined slug lookup (note:
no `isActive` filter). -/
def findPromptBySlug (st : PromptStore) (pr : ProjectId) (slug : String) : Option Prompt :=
  st.prompts.find? (fun p =>
    p.slug == slug && p.tenantId == pr.tenantId && p.projectId == pr.id)

/-- Insert payload for `PromptRepository.createPrompt`. -/
structure NewPrompt where
  tenantId : Nat
  projectId : Nat
  name : String
  slug : String
  provider : String
  model : String
  body : String
  latestVersion : Nat
  isActive : Bool

/-- `PromptRepository.createPrompt`: insert returning the new row. -/
def createPrompt (st : PromptStore) (d : NewPrompt) : PromptStore × Prompt :=
  let p : Prompt :=
    { id := st.nextPromptId, tenantId := d.tenantId, projectId := d.projectId,
      name := d.name, slug := d.slug, provider := d.provider, model := d.model,
      body := d.body, latestVersion := d.latestVersion, isActive := d.isActive }
  ({ st with prompts := st.prompts ++ [p], nextPromptId := st.nextPromptId + 1 }, p)

/-- `PromptRepository.updatePrompt` at its single call site, which always
sets exactly `name`, `provider`, `model`, `body` and `latestVersion` on the
rows matched by `EntityId.toWhereClause` (the `updatedAt` touch is not
modeled). -/
def updatePromptRow (st : PromptStore) (e : EntityId)
    (name provider model body : String) (latestVersion : Nat) : PromptStore :=
  { st with prompts := st.prompts.map (fun p =>
      if promptWhere e p then
        { p with name := name, provider := provider, model := model,
                 body := body, latestVersion := latestVersion }
      else p) }

/-- `PromptRepository.renamePrompt`: sets `name` and `slug` on the scoped row. -/
def renamePromptRow (st : PromptStore) (e : EntityId) (name slug : String) : PromptStore :=
  { st with prompts := st.prompts.map (fun p =>
      if promptWhere e p then { p with name := name, slug := slug } else p) }

/-- Insert payload for `PromptRepository.createPromptVersion`. -/
structure NewPromptVersion where
  promptId : Nat
  tenantId : Nat
  projectId : Nat
  version : Nat
  name : String
  provider : String
  model : String
  body : String
  slug : String

/-- `PromptRepository.createPromptVersion`: insert returning the new row. -/
def createPromptVersion (st : PromptStore) (d : NewPromptVersion) :
    PromptStore × PromptVersion :=
  let v : PromptVersion :=
    { id := st.nextVersionId, promptId := d.promptId, tenantId := d.tenantId,
      projectId := d.projectId, version := d.version, name := d.name,
      provider := d.provider, model := d.model, body := d.body, slug := d.slug }
  ({ st with promptVersions := st.promptVersions ++ [v],
             nextVersionId := st.nextVersionId + 1 }, v)

/-- Where-clause of the `(promptId, version)` overload of
`PromptRepository.findPromptVersion`. -/
def promptVersionWhere (e : EntityId) (version : Nat) (v : PromptVersion) : Bool :=
  v.promptId == e.id && v.tenantId == e.tenantId &&
    v.projectId == e.projectId && v.version == version

/-- `PromptRepository.findPromptVersion` (entity-id/version overload). -/
def findPromptVersion (st : PromptStore) (e : EntityId) (version : Nat) :
    Option PromptVersion :=
  st.promptVersions.find? (promptVersionWhere e version)

/-- Where-clause of `PromptRepository.findPromptRouter`. -/
def promptRouterWhere (e : EntityId) (r : PromptRouter) : Bool :=
  r.promptId == e.id && r.tenantId == e.tenantId && r.projectId == e.projectId

/-- `PromptRepository.findPromptRouter`. -/
def findPromptRouter (st : PromptStore) (e : EntityId) : Option PromptRouter :=
  st.promptRouters.find? (promptRouterWhere e)

/-- Insert payload for `PromptRepository.createPromptRouter`. -/
structure NewPromptRouter where
  promptId : Nat
  tenantId : Nat
  projectId : Nat
  version : Nat

/-- `PromptRepository.createPromptRouter`: insert returning the new row. -/
def createPromptRouter (st : PromptStore) (d : NewPromptRouter) :
    PromptStore × PromptRouter :=
  let r : PromptRouter :=
    { id := st.nextRouterId, promptId := d.promptId, tenantId := d.tenantId,
      projectId := d.projectId, version := d.version }
  ({ st with promptRouters := st.promptRouters ++ [r],
             nextRouterId := st.nextRouterId + 1 }, r)

/-- `PromptRepository.updatePromptRouterVersion`: overwrites `version` on the
rows matching the router row id conjoined with the tenancy scope. -/
def updatePromptRouterVersion (st : PromptStore) (e : EntityId)
    (routerId version : Nat) : PromptStore :=
  { st with promptRouters := st.promptRouters.map (fun r =>
      if r.id == routerId && r.tenantId == e.tenantId && r.projectId == e.projectId then
        { r with version := version }
      else r) }

/-! ## Prompt service (`prompt.service.ts`) -/

/-- `CreatePromptInput`. -/
structure CreatePromptInput where
  name : String
  slug : String
  provider : String
  model : String
  body : String

/-- `UpdatePromptInput`: every field optional; `none` models an omitted
(`undefined`) field. -/
structure UpdatePromptInput where
  name : Option String := none
  provider : Option String := none
  model : Option String := none
  body : Option String := none

/-- `PromptService.createPrompt`: Head at version 1, ledger entry at
version 1, router pointing at version 1. -/
def svcCreatePrompt (st : PromptStore) (pr : ProjectId) (input : CreatePromptInput) :
    PromptStore × Prompt :=
  let version := 1
  let c1 := createPrompt st
    { tenantId := pr.tenantId, projectId := pr.id, name := input.name,
      slug := input.slug, provider := input.provider, model := input.model,
      body := input.body, latestVersion := version, isActive := true }
  let prompt := c1.2
  let c2 := createPromptVersion c1.1
    { promptId := prompt.id, tenantId := pr.tenantId, projectId := pr.id,
      version := version, name := input.name, provider := input.provider,
      model := input.model, body := input.body, slug := input.slug }
  let c3 := createPromptRouter c2.1
    { promptId := prompt.id, tenantId := pr.tenantId, projectId := pr.id,
      version := version }
  (c3.1, prompt)

/-- `PromptService.updatePrompt`: read Head, compute `newVersion`, merge the
partial input over the current fields (`input.x ?? current.x`), write the
Head, append a ledger entry, advance (or create) the router. -/
def svcUpdatePrompt (st : PromptStore) (e : EntityId) (input : UpdatePromptInput) :
    Except String PromptStore :=
  match findPromptById st e with
  | none => .error "Prompt not found"
  | some currentPrompt =>
    let newVersion := currentPrompt.latestVersion + 1
    let st1 := updatePromptRow st e
      (input.name.getD currentPrompt.name)
      (input.provider.getD currentPrompt.provider)
      (input.model.getD currentPrompt.model)
      (input.body.getD currentPrompt.body)
      newVersion
    let c2 := createPromptVersion st1
      { promptId := e.id, tenantId := e.tenantId, projectId := e.projectId,
        version := newVersion,
        name := input.name.getD currentPrompt.name,
        provider := input.provider.getD currentPrompt.provider,
        model := input.model.getD currentPrompt.model,
        body := input.body.getD currentPrompt.body,
        slug := currentPrompt.slug }
    let st2 := c2.1
    match findPromptRouter st2 e with
    | some existingRouter =>
      .ok (updatePromptRouterVersion st2 e existingRouter.id newVersion)
    | none =>
      .ok (createPromptRouter st2
        { promptId := e.id, tenantId := e.tenantId, projectId := e.projectId,
          version := newVersion }).1

/-- `PromptService.getActivePromptVersion`: read the router, then the ledger
entry it addresses; a missing entry yields `null` (`version ?? null`). -/
def getActivePromptVersion (st : PromptStore) (e : EntityId) : Option PromptVersion :=
  match findPromptRouter st e with
  | none => none
  | some router =>
    match findPromptVersion st e router.version with
    | some version => some version
    | none => none

/-- `PromptService.setRouterVersion`: requires the ledger entry at exactly
that version to exist under scope, then repoints or creates the router. -/
def setRouterVersion (st : PromptStore) (e : EntityId) (version : Nat) :
    Except String PromptStore :=
  match findPromptVersion st e version with
  | none => .error "Version not found"
  | some _ =>
    match findPromptRouter st e with
    | some existingRouter =>
      .ok (updatePromptRouterVersion st e existingRouter.id version)
    | none =>
      .ok (createPromptRouter st
        { promptId := e.id, tenantId := e.tenantId, projectId := e.projectId,
          version := version }).1

/-- The slug-probe loop of `PromptService.copyPrompt`, with explicit fuel in
place of the source `while (true)`; the loop state is the current copy
number together with the current candidate name and slug. -/
def copySlugProbe (st : PromptStore) (pr : ProjectId) (srcName srcSlug : String) :
    Nat → Nat → String → String → Option (String × String)
  | 0, _, _, _ => none
  | fuel+1, copyNumber, newName, newSlug =>
    match findPromptBySlug st pr newSlug with
    | none => some (newName, newSlug)
    | some _ =>
      let n := copyNumber + 1
      copySlugProbe st pr srcName srcSlug fuel n
        (srcName ++ " Copy " ++ natRepr n) (srcSlug ++ "-copy-" ++ natRepr n)

/-- `PromptService.copyPrompt`: derive a unique name/slug by sequential
probing, then create a brand-new head, ledger entry and router at version 1
seeded with the source content.  The fuel `st.prompts.length + 1` always
suffices (see `copySlugProbe` success below), so the `none` branch of the
probe is unreachable. -/
def copyPrompt (st : PromptStore) (e : EntityId) : Except String (PromptStore × Prompt) :=
  match findPromptById st e with
  | none => .error "Source prompt not found"
  | some sourcePrompt =>
    let pr := e.getProjectId
    match copySlugProbe st pr sourcePrompt.name sourcePrompt.slug
        (st.prompts.length + 1) 1
        (sourcePrompt.name ++ " Copy") (sourcePrompt.slug ++ "-copy") with
    | none => .error "copy probe out of fuel"
    | some (newName, newSlug) =>
      let c1 := createPrompt st
        { tenantId := e.tenantId, projectId := e.projectId, name := newName,
          slug := newSlug, provider := sourcePrompt.provider,
          model := sourcePrompt.model, body := sourcePrompt.body,
          latestVersion := 1, isActive := true }
      let newPrompt := c1.2
      let c2 := createPromptVersion c1.1
        { promptId := newPrompt.id, tenantId := e.tenantId, projectId := e.projectId,
          version := 1, name := newName, provider := sourcePrompt.provider,
          model := sourcePrompt.model, body := sourcePrompt.body, slug := newSlug }
      let c3 := createPromptRouter c2.1
        { promptId := newPrompt.id, tenantId := e.tenantId, projectId := e.projectId,
          version := 1 }
      .ok (c3.1, newPrompt)

/-- Slug-character test for `generateSlug` (`[a-z0-9]` after lower-casing). -/
def isSlugChar (c : Char) : Bool := (('a' ≤ c ∧ c ≤ 'z') ∨ c.isDigit : Bool)

/-- `PromptService.generateSlug`: lower-case, split on runs of
non-alphanumerics, drop empty segments, hyphen-join. -/
def generateSlug (name : String) : String :=
  String.intercalate "-" ((name.toLower.split (fun c => ¬isSlugChar c)).filter
    (fun s => s ≠ ""))

/-- `PromptService.renamePrompt`: head-only rename with slug-conflict check
(self-match allowed); no ledger entry, no router touch. -/
def renamePrompt (st : PromptStore) (e : EntityId) (name : String) :
    Except String (PromptStore × Prompt) :=
  match findPromptById st e with
  | none => .error "Prompt not found"
  | some _ =>
    let generatedSlug := generateSlug name
    let pr := e.getProjectId
    match findPromptBySlug st pr generatedSlug with
    | some slugConflict =>
      if slugConflict.id ≠ e.id then .error "Slug already in use"
      else
        let st1 := renamePromptRow st e name generatedSlug
        match findPromptById st1 e with
        | none => .error "Failed to retrieve updated prompt"
        | some updatedPrompt => .ok (st1, updatedPrompt)
    | none =>
      let st1 := renamePromptRow st e name generatedSlug
      match findPromptById st1 e with
      | none => .error "Failed to retrieve updated prompt"
      | some updatedPrompt => .ok (st1, updatedPrompt)

/-! ## Dataset data model (`DataSets`, `DataSetRecords` tables) -/

/-- Dataset aggregate row.  `countOfRecords` is an SQL integer, so it is
modeled as `Int`; `schema` is the persisted JSON string. -/
structure DataSet where
  id : Nat
  tenantId : Nat
  projectId : Nat
  name : String
  slug : String
  isDeleted : Bool
  countOfRecords : Int
  schema : String
deriving DecidableEq

/-- Dataset record row.  `createdAt` is the insertion tick used by the
descending order-by. -/
structure DataSetRecord where
  id : Nat
  tenantId : Nat
  projectId : Nat
  dataSetId : Nat
  vars : String
  isDeleted : Bool
  createdAt : Nat
deriving DecidableEq

/-- Durable dataset-side state: the two tables, their autoincrement
counters, and the clock supplying `createdAt` ticks. -/
structure DataSetStore where
  dataSets : List DataSet
  records : List DataSetRecord
  nextDataSetId : Nat
  nextRecordId : Nat
  clock : Nat
deriving DecidableEq

/-! ## Dataset repositories (`dataset.repository.ts`,
`dataset-record.repository.ts`) -/

/-- Where-clause of `EntityId.toWhereClause` applied to the `DataSets`
table. -/
def dataSetWhere (e : EntityId) (d : DataSet) : Bool :=
  d.tenantId == e.tenantId && d.projectId == e.projectId && d.id == e.id

/-- `DataSetRepository.findById`: scoped lookup of a live dataset. -/
def dsFindById (st : DataSetStore) (e : EntityId) : Option DataSet :=
  st.dataSets.find? (fun d => dataSetWhere e d && !d.isDeleted)

/-- `DataSetRepository.incrementRecordCountBy`: signed counter adjustment on
the scoped row; a zero amount issues no update. -/
def incrementRecordCountBy (st : DataSetStore) (e : EntityId) (amount : Int) :
    DataSetStore :=
  if amount = 0 then st
  else { st with dataSets := st.dataSets.map (fun d =>
    if dataSetWhere e d then { d with countOfRecords := d.countOfRecords + amount }
    else d) }

/-- `DataSetRepository.softDelete`. -/
def dsSoftDelete (st : DataSetStore) (e : EntityId) : DataSetStore :=
  { st with dataSets := st.dataSets.map (fun d =>
      if dataSetWhere e d then { d with isDeleted := true } else d) }

/-- `DataSetRepository.updateSchema`. -/
def dsUpdateSchema (st : DataSetStore) (e : EntityId) (schema : String) :
    DataSetStore :=
  { st with dataSets := st.dataSets.map (fun d =>
      if dataSetWhere e d then { d with schema := schema } else d) }

/-- Insert payload for `DataSetRecordRepository.createMany`. -/
structure NewDataSetRecord where
  tenantId : Nat
  projectId : Nat
  dataSetId : Nat
  vars : String
  isDeleted : Bool

/-- `DataSetRecordRepository.createMany`: batch insert returning the new
rows in insertion order. -/
def dsCreateMany : DataSetStore → List NewDataSetRecord → DataSetStore × List DataSetRecord
  | st, [] => (st, [])
  | st, r :: rest =>
    let row : DataSetRecord :=
      { id := st.nextRecordId, tenantId := r.tenantId, projectId := r.projectId,
        dataSetId := r.dataSetId, vars := r.vars,
        isDeleted := r.isDeleted, createdAt := st.clock }
    let st1 : DataSetStore :=
      { st with records := st.records ++ [row],
                nextRecordId := st.nextRecordId + 1, clock := st.clock + 1 }
    let p := dsCreateMany st1 rest
    (p.1, row :: p.2)

/-- Scope-and-parent part of the record where-clauses. -/
def recordScopeWhere (e : EntityId) (r : DataSetRecord) : Bool :=
  r.tenantId == e.tenantId && r.projectId == e.projectId && r.dataSetId == e.id

/-- Where-clause of `DataSetRecordRepository.softDeleteMany`: scoped to the
dataset, restricted to the given ids, and only currently-live rows. -/
def softDeleteManyWhere (e : EntityId) (recordIds : List Nat) (r : DataSetRecord) : Bool :=
  recordScopeWhere e r && recordIds.contains r.id && !r.isDeleted

/-- `DataSetRecordRepository.softDeleteMany`: marks the matched rows deleted
and returns how many rows were affected (an empty id list short-circuits). -/
def dsSoftDeleteMany (st : DataSetStore) (e : EntityId) (recordIds : List Nat) :
    DataSetStore × Nat :=
  if recordIds.isEmpty then (st, 0)
  else
    let affected := st.records.countP (softDeleteManyWhere e recordIds)
    ({ st with records := st.records.map (fun r =>
        if softDeleteManyWhere e recordIds r then { r with isDeleted := true } else r) },
     affected)

/-- Insertion step of the descending-`createdAt` ordering used by the list
queries. -/
def insertByCreatedAtDesc (r : DataSetRecord) : List DataSetRecord → List DataSetRecord
  | [] => [r]
  | x :: xs =>
    if x.createdAt ≤ r.createdAt then r :: x :: xs else x :: insertByCreatedAtDesc r xs

/-- `ORDER BY createdAt DESC` as an insertion sort. -/
def sortByCreatedAtDesc (l : List DataSetRecord) : List DataSetRecord :=
  l.foldr insertByCreatedAtDesc []

/-- Pagination parameters as validated by the shared resolver (`page ≥ 1`,
`pageSize ≥ 1`). -/
structure Pagination where
  page : Nat
  pageSize : Nat

/-- `DataSetRecordRepository.listByDataSetPaginated`: the windowed live rows
plus a `total` obtained from a fresh count query over the live record rows
(`countResult.length`). -/
def listByDataSetPaginated (st : DataSetStore) (e : EntityId) (pg : Pagination) :
    List DataSetRecord × Nat :=
  let offset := (pg.page - 1) * pg.pageSize
  let recordsResult :=
    ((sortByCreatedAtDesc (st.records.filter (fun r =>
        recordScopeWhere e r && !r.isDeleted))).drop offset).take pg.pageSize
  let countResult := st.records.filter (fun r => recordScopeWhere e r && !r.isDeleted)
  (recordsResult, countResult.length)

/-! ## Dataset service (`dataset.service.ts`) -/

/-- Association map from dot-joined field path to the raw value stored under
it in the parsed schema document (normally `{"type": t}` objects). -/
abbrev SchemaFields := List (String × Json)

/-- The `{ type }` object written by the schema-merge code. -/
def tyObj (t : String) : Json := Json.obj [("type", Json.str t)]

/-- `getFieldType` inside `DataSetService.parseSchema`: a raw string is its
own type; otherwise the value must be a truthy object with a `type` member,
whose string or number value is rendered, anything else reading as
`"unknown"`. -/
def getFieldType (field : Json) : Option String :=
  match field with
  | .str s => some s
  | _ =>
    if ¬jsTruthy field then none
    else if jsTypeof field ≠ "object" then none
    else match jsProp field "type" with
      | none => none
      | some (.str s) => some s
      | some (.num n) => some (intRepr n)
      | some _ => some "unknown"

/-- Legacy-format branch of `parseSchema`: rebuild the fields map from the
top-level entries of the parsed document, skipping entries with a falsy
type. -/
def legacyFields (entries : List (String × Json)) : SchemaFields :=
  entries.foldl (fun fields kv =>
    match getFieldType kv.2 with
    | none => fields
    | some t => if t = "" then fields else setk fields kv.1 (tyObj t)) []

/-- `DataSetService.parseSchema`: empty strings, parse failures and falsy or
non-`typeof`-object documents yield the empty map; a document with a truthy
object `fields` member is copied as-is; anything else goes through the
legacy per-key interpretation. -/
def parseSchema (value : String) : SchemaFields :=
  if value = "" then []
  else
    match parseJson value with
    | none => []
    | some parsed =>
      if ¬jsTruthy parsed ∨ jsTypeof parsed ≠ "object" then []
      else
        match jsProp parsed "fields" with
        | some parsedFields =>
          if jsTruthy parsedFields ∧ jsTypeof parsedFields = "object" then
            jsEntries parsedFields
          else legacyFields (jsEntries parsed)
        | none => legacyFields (jsEntries parsed)

/-- `Object.assign(dst, src)` on string-valued records: fold the source
pairs into the destination by property assignment. -/
def assignAll (dst src : List (String × String)) : List (String × String) :=
  src.foldl (fun d kv => setk d kv.1 kv.2) dst

mutual
/-- `DataSetService.collectFields`: flatten a payload into dot-joined
`(path, type)` pairs; see the source for the per-shape cases. -/
def collectFields : Json → String → List (String × String)
  | value, pre =>
    let path := if pre = "" then "value" else pre
    match value with
    | .null => [(path, "null")]
    | .arr _ => [(path, "array")]
    | .obj kvs =>
      if kvs.isEmpty ∧ pre ≠ "" then [(path, "object")]
      else collectFieldsEntries kvs pre []
    | .bool _ => [(path, "boolean")]
    | .num _ => [(path, "number")]
    | .str _ => [(path, "string")]

/-- The `for (const [key, next] of entries)` loop of `collectFields`, with
the accumulated `fields` record made explicit. -/
def collectFieldsEntries : List (String × Json) → String → List (String × String) →
    List (String × String)
  | [], _, fields => fields
  | (key, next) :: rest, pre, fields =>
    let nextPre := if pre = "" then key else pre ++ "." ++ key
    collectFieldsEntries rest pre (assignAll fields (collectFields next nextPre))
end

/-- `DataSetService.mergeSchema` body applied to one observed
`(path, type)` pair: insert when absent, keep when equal or already
`"mixed"`, otherwise widen to `"mixed"`. -/
def mergeField (fields : SchemaFields) (path ty : String) : SchemaFields :=
  match getk fields path with
  | none => setk fields path (tyObj ty)
  | some existing =>
    if jsStrProp existing "type" ≠ some ty ∧ jsStrProp existing "type" ≠ some "mixed" then
      setk fields path (tyObj "mixed")
    else fields

/-- `DataSetService.mergeSchema`: fold every flattened pair of the payload
into the fields map. -/
def mergeSchema (fields : SchemaFields) (vars : Json) : SchemaFields :=
  (collectFields vars "").foldl (fun acc kv => mergeField acc kv.1 kv.2) fields

/-- `JSON.stringify` of the `DataSetSchema` wrapper written back by the
service. -/
def stringifySchema (fields : SchemaFields) : String :=
  stringifyJson (Json.obj [("fields", Json.obj fields)])

/-- `DataSetService.createDataSetRecord`: require a live dataset, merge the
payload shape into the parsed schema, insert one record, increment the
counter by 1, persist the updated schema. -/
def createDataSetRecord (st : DataSetStore) (e : EntityId) (vars : Json) :
    Except String (DataSetStore × DataSetRecord) :=
  match dsFindById st e with
  | none => .error "Dataset not found"
  | some dataset =>
    let schema := mergeSchema (parseSchema dataset.schema) vars
    let c := dsCreateMany st
      [{ tenantId := e.tenantId, projectId := e.projectId, dataSetId := e.id,
         vars := stringifyJson vars, isDeleted := false }]
    match c.2 with
    | [] => .error "Failed to create record"
    | record :: _ =>
      let st1 := incrementRecordCountBy c.1 e 1
      let st2 := dsUpdateSchema st1 e (stringifySchema schema)
      .ok (st2, record)

/-- `DataSetService.deleteDataSetRecords`: soft-delete the matched rows and
decrement the counter by exactly the number of rows actually affected. -/
def deleteDataSetRecords (st : DataSetStore) (e : EntityId) (recordIds : List Nat) :
    DataSetStore × Nat :=
  let p := dsSoftDeleteMany st e recordIds
  if p.2 > 0 then (incrementRecordCountBy p.1 e (-(p.2 : Int)), p.2) else (p.1, p.2)

/-- Result shape of `DataSetService.listDataSetRecordsPaginated`. -/
structure PaginatedRecords where
  records : List DataSetRecord
  total : Nat
  page : Nat
  pageSize : Nat
  totalPages : Nat
deriving DecidableEq

/-- `Math.ceil (a / b)` on naturals for `b ≥ 1`. -/
def ceilDiv (a b : Nat) : Nat := (a + b - 1) / b

/-- `DataSetService.listDataSetRecordsPaginated`. -/
def listDataSetRecordsPaginated (st : DataSetStore) (e : EntityId) (pg : Pagination) :
    PaginatedRecords :=
  let p := listByDataSetPaginated st e pg
  { records := p.1, total := p.2, page := pg.page, pageSize := pg.pageSize,
    totalPages := ceilDiv p.2 pg.pageSize }

/-- The per-log loop of `DataSetService.addLogsToDataSet`: each settled
lookup either increments `skipped` (rejected or empty) or merges the
vars into the schema and queues a record row. -/
def addLogsLoop (e : EntityId) : SchemaFields → List NewDataSetRecord → Nat →
    List (Option Json) → SchemaFields × List NewDataSetRecord × Nat
  | schema, newRecords, skipped, [] => (schema, newRecords, skipped)
  | schema, newRecords, skipped, none :: rest =>
    addLogsLoop e schema newRecords (skipped + 1) rest
  | schema, newRecords, skipped, some vars :: rest =>
    addLogsLoop e (mergeSchema schema vars)
      (newRecords ++ [{ tenantId := e.tenantId, projectId := e.projectId,
                        dataSetId := e.id, vars := stringifyJson vars,
                        isDeleted := false }])
      skipped rest

/-- `DataSetService.addLogsToDataSet`, with the external
`LogService.getLogVariables` collaborator abstracted as a function from log
id to optional payload (`none` covering both a rejected promise and a log
without vars).  Returns the new store with `(added, skipped)`. -/
def addLogsToDataSet (getLogVariables : Nat → Option Json) (st : DataSetStore)
    (e : EntityId) (logIds : List Nat) : Except String (DataSetStore × Nat × Nat) :=
  match dsFindById st e with
  | none => .error "Dataset not found"
  | some dataset =>
    let r := addLogsLoop e (parseSchema dataset.schema) [] 0 (logIds.map getLogVariables)
    match r with
    | (schema, newRecords, skipped) =>
      if newRecords.isEmpty then .ok (st, 0, skipped)
      else
        let c := dsCreateMany st newRecords
        let st1 := incrementRecordCountBy c.1 e (newRecords.length : Int)
        let st2 := dsUpdateSchema st1 e (stringifySchema schema)
        .ok (st2, newRecords.length, skipped)

/-- One step of a dataset workload: a `createRecord` or a `deleteRecords`
call (a failed create leaves the store unchanged). -/
inductive DsOp where
  | createRec (e : EntityId) (vars : Json)
  | deleteRecs (e : EntityId) (recordIds : List Nat)

/-- Apply one workload step to the store. -/
def applyDsOp (st : DataSetStore) : DsOp → DataSetStore
  | .createRec e vars =>
    match createDataSetRecord st e vars with
    | .ok p => p.1
    | .error _ => st
  | .deleteRecs e recordIds => (deleteDataSetRecords st e recordIds).1

/-- Run a finite workload of creates and deletes. -/
def runDsOps (st : DataSetStore) (ops : List DsOp) : DataSetStore :=
  ops.foldl applyDsOp st

/-- Independent recount: number of live records belonging to the given
dataset key. -/
def liveRecordCount (recs : List DataSetRecord) (t p dsId : Nat) : Nat :=
  recs.countP (fun r =>
    r.tenantId == t && r.projectId == p && r.dataSetId == dsId && !r.isDeleted)

/-- Counter exactness invariant: every dataset row carries exactly the live
count of its own records. -/
def CounterInv (st : DataSetStore) : Prop :=
  ∀ d ∈ st.dataSets,
    d.countOfRecords = (liveRecordCount st.records d.tenantId d.projectId d.id : Int)

/-! ## Spec-side reference definition of the flattening algorithm (§4.2) -/

/-- Path used by the spec clauses for a leaf observation: the current
prefix, or the literal `"value"` fallback when the prefix is empty. -/
def specPath (pre : String) : String := if pre = "" then "value" else pre

/-- Dot-joined child path: `prefix.key`, or `key` when the prefix is
empty. -/
def joinPath (pre key : String) : String := if pre = "" then key else pre ++ "." ++ key

mutual
/-- Modelled from the spec: the recursive reference definition of the
flattening algorithm read literally, collecting the `(path, type)` pairs of
all leaves by concatenation (null, array and scalars are leaves; a non-empty
object contributes no entry for itself and recurses into each key; an empty
object at a non-empty prefix reads as `"object"`). -/
def specFlattenPairs : Json → String → List (String × String)
  | .null, pre => [(specPath pre, "null")]
  | .bool _, pre => [(specPath pre, "boolean")]
  | .num _, pre => [(specPath pre, "number")]
  | .str _, pre => [(specPath pre, "string")]
  | .arr _, pre => [(specPath pre, "array")]
  | .obj [], pre => if pre = "" then [] else [(pre, "object")]
  | .obj (kv :: rest), pre => specFlattenPairsEntries (kv :: rest) pre

/-- Per-key concatenation for `specFlattenPairs`. -/
def specFlattenPairsEntries : List (String × Json) → String → List (String × String)
  | [], _ => []
  | (key, v) :: rest, pre =>
    specFlattenPairs v (joinPath pre key) ++ specFlattenPairsEntries rest pre
end

mutual
/-- Modelled from the spec: the same recursive reference definition, but
with the pairs of successive keys accumulated by property assignment, so
that a later occurrence of an already-seen path overwrites the earlier
one. -/
def specFlattenAssign : Json → String → List (String × String)
  | .null, pre => [(specPath pre, "null")]
  | .bool _, pre => [(specPath pre, "boolean")]
  | .num _, pre => [(specPath pre, "number")]
  | .str _, pre => [(specPath pre, "string")]
  | .arr _, pre => [(specPath pre, "array")]
  | .obj [], pre => if pre = "" then [] else [(pre, "object")]
  | .obj (kv :: rest), pre => specFlattenAssignEntries (kv :: rest) pre []

/-- Per-key assignment accumulation for `specFlattenAssign`. -/
def specFlattenAssignEntries : List (String × Json) → String → List (String × String) →
    List (String × String)
  | [], _, acc => acc
  | (key, v) :: rest, pre, acc =>
    specFlattenAssignEntries rest pre (assignAll acc (specFlattenAssign v (joinPath pre key)))
end

/-! ## Generic list lemmas used by the claim proofs -/

theorem find?_map_invariant {α : Type} (l : List α) (g : α → α) (q : α → Bool)
    (h : ∀ a, q (g a) = q a) : List.find? q (l.map g) = Option.map g (List.find? q l) := by
  induction l with
  | nil => rfl
  | cons x xs ih =>
    simp only [List.map_cons, List.find?_cons]
    rw [h x]
    cases hq : q x
    · exact ih
    · rfl

theorem find?_restrict {α : Type} (l : List α) (q sc : α → Bool)
    (h : ∀ a, q a = true → sc a = true) :
    List.find? q l = List.find? q (l.filter sc) := by
  induction l with
  | nil => rfl
  | cons x xs ih =>
    by_cases hx : sc x = true
    · rw [List.filter_cons_of_pos hx]
      simp only [List.find?_cons]
      cases hq : q x
      · exact ih
      · rfl
    · rw [List.filter_cons_of_neg hx]
      have hqx : q x = false := by
        cases hq : q x
        · rfl
        · exact absurd (h x hq) hx
      simp only [List.find?_cons, hqx]
      exact ih

theorem filter_restrict {α : Type} (l : List α) (q sc : α → Bool)
    (h : ∀ a, q a = true → sc a = true) :
    List.filter q l = List.filter q (l.filter sc) := by
  induction l with
  | nil => rfl
  | cons x xs ih =>
    by_cases hx : sc x = true
    · rw [List.filter_cons_of_pos hx]
      by_cases hq : q x = true
      · rw [List.filter_cons_of_pos hq, List.filter_cons_of_pos hq, ih]
      · rw [List.filter_cons_of_neg hq, List.filter_cons_of_neg hq, ih]
    · have hqx : q x = false := by
        cases hq : q x
        · rfl
        · exact absurd (h x hq) hx
      rw [List.filter_cons_of_neg hx, List.filter_cons_of_neg (by simp [hqx])]
      exact ih

theorem filter_map_comm {α : Type} (l : List α) (g : α → α) (sc : α → Bool)
    (h : ∀ a, sc (g a) = sc a) :
    (l.map g).filter sc = (l.filter sc).map g := by
  induction l with
  | nil => rfl
  | cons x xs ih =>
    simp only [List.map_cons]
    by_cases hx : sc x = true
    · rw [List.filter_cons_of_pos (by rw [h x]; exact hx), List.filter_cons_of_pos hx,
        List.map_cons, ih]
    · rw [List.filter_cons_of_neg (by rw [h x]; exact hx), List.filter_cons_of_neg hx, ih]

theorem filter_map_id {α : Type} (l : List α) (g : α → α) (sc : α → Bool)
    (hsc : ∀ a, sc (g a) = sc a) (hid : ∀ a, sc a = false → g a = a) :
    (l.map g).filter (fun a => !sc a) = l.filter (fun a => !sc a) := by
  rw [filter_map_comm l g _ (by intro a; simp [hsc a])]
  have : ∀ a ∈ l.filter (fun a => !sc a), g a = a := by
    intro a ha
    have := List.of_mem_filter ha
    exact hid a (by simpa using this)
  calc (l.filter (fun a => !sc a)).map g = (l.filter (fun a => !sc a)).map id :=
        List.map_congr_left this
    _ = l.filter (fun a => !sc a) := List.map_id _

theorem countP_split {α : Type} (l : List α) (a b : α → Bool) :
    l.countP a = l.countP (fun x => a x && b x) + l.countP (fun x => a x && !b x) := by
  induction l with
  | nil => rfl
  | cons x xs ih =>
    simp only [List.countP_cons, ih]
    cases ha : a x <;> cases hb : b x <;> simp [ha, hb] <;> omega

theorem getk_setk_self {β : Type} (l : List (String × β)) (k : String) (v : β) :
    getk (setk l k v) k = some v := by
  induction l with
  | nil => simp [setk, getk]
  | cons x xs ih =>
    by_cases hk : x.1 = k
    · simp [setk, hk, getk]
    · simp only [setk]
      rw [if_neg (by exact hk)]
      simp [getk, hk, ih]

theorem getk_setk_ne {β : Type} (l : List (String × β)) (k q : String) (v : β)
    (h : k ≠ q) : getk (setk l k v) q = getk l q := by
  induction l with
  | nil => simp [setk, getk, h]
  | cons x xs ih =>
    by_cases hk : x.1 = k
    · simp [setk, hk, getk, h, Ne.symm h]
    · simp only [setk]
      rw [if_neg (by exact hk)]
      simp only [getk]
      by_cases hq : x.1 = q
      · simp [hq]
      · simp [hq, ih]

theorem setk_absent {β : Type} (l : List (String × β)) (k : String) (v : β)
    (h : getk l k = none) : setk l k v = l ++ [(k, v)] := by
  induction l with
  | nil => simp [setk]
  | cons x xs ih =>
    simp only [getk] at h
    by_cases hk : x.1 = k
    · simp [hk] at h
    · simp only [setk]
      rw [if_neg (by exact hk)]
      rw [if_neg (by exact hk)] at h
      simp [ih h]

/-! ## Claim C3: getActive and the dangling-router case -/

/-- Boolean test for the object constructor of `Json`. -/
def jsonIsObj : Json → Bool
  | .obj _ => true
  | _ => false

/-- Head row for the C3 counterexample store. -/
def promptC3 : Prompt := ⟨1, 1, 1, "T", "t", "openai", "gpt", "{}", 1, true⟩

/-- Router row for the C3 counterexample store, pointing at version 1 while
the ledger is empty (the situation the test suite constructs by deleting the
`PromptVersions` rows). -/
def routerC3 : PromptRouter := ⟨1, 1, 1, 1, 1⟩

/-- C3 counterexample store: head and router exist, ledger entry missing. -/
def stC3 : PromptStore := ⟨[promptC3], [], [routerC3], 2, 2, 2⟩

/-- Entity id addressing the C3 counterexample prompt. -/
def eC3 : EntityId := ⟨1, 1, 1, "u"⟩

/-- C3, counterexample: the claim says `getActive` returns null exactly when
no Router row exists, and that a Router whose version has no matching Ledger
Entry surfaces a `ConsistencyViolation` error.  In the store `stC3` a Router
row exists for the prompt but its version has no Ledger Entry, and
`getActivePromptVersion` silently returns `none` — there is no error channel
at all in its return type. -/
theorem getActivePromptVersion_cex :
    getActivePromptVersion stC3 eC3 = none ∧ findPromptRouter stC3 eC3 ≠ none := by
  constructor
  · rfl
  · decide

/-- C3, amended: `getActive` returns the Ledger Entry addressed by the
current Router, and returns null both when no Router row exists for the
parent under scope and when the Router's version has no matching Ledger
Entry; the dangling-router condition is silently mapped to null rather than
surfaced as an error. -/
theorem getActivePromptVersion_amended (st : PromptStore) (e : EntityId) :
    (getActivePromptVersion st e = none ↔
      findPromptRouter st e = none ∨
        ∃ r, findPromptRouter st e = some r ∧ findPromptVersion st e r.version = none) ∧
    (∀ pv, getActivePromptVersion st e = some pv →
      ∃ r, findPromptRouter st e = some r ∧ findPromptVersion st e r.version = some pv) := by
  unfold getActivePromptVersion
  cases hr : findPromptRouter st e with
  | none => simp
  | some r =>
    cases hv : findPromptVersion st e r.version with
    | none => simp [hv]
    | some pv => simp [hv]

/-- Scope used by the concrete scenario stores. -/
def demoProject : ProjectId := ⟨1, 1, "u"⟩

/-- Entity id of the prompt created in the scenario stores. -/
def demoEntity : EntityId := ⟨1, 1, 1, "u"⟩

/-- Empty prompt store with autoincrement counters at 1. -/
def demoStore0 : PromptStore := ⟨[], [], [], 1, 1, 1⟩

/-- Store after `createPrompt {name "X", slug "x", body "b1"}`. -/
def demoStore1 : PromptStore :=
  (svcCreatePrompt demoStore0 demoProject ⟨"X", "x", "openai", "gpt", "b1"⟩).1

/-- Store after the scenario update `{body: "b2"}` (latestVersion 2). -/
def demoStore2 : PromptStore :=
  match svcUpdatePrompt demoStore1 demoEntity { body := some "b2" } with
  | .ok st => st
  | .error _ => demoStore0

/-- The ledger entry at version 2 in `demoStore2`. -/
def demoVersion2 : PromptVersion := ⟨2, 1, 1, 1, 2, "X", "openai", "gpt", "b2", "x"⟩

/-- C3 amended, witness: in the scenario store after one update the
characterization applied at the concrete prompt reports the version-2 entry
addressed by the router. -/
theorem getActivePromptVersion_amended_witness :
    ∃ r, findPromptRouter demoStore2 demoEntity = some r ∧
      findPromptVersion demoStore2 demoEntity r.version = some demoVersion2 :=
  (getActivePromptVersion_amended demoStore2 demoEntity).2 demoVersion2 (by decide)

/-! ## Claim C7: pagination totals -/

/-- Dataset row with `countOfRecords` drifted to 5 while no records exist;
the SQL state is directly constructible and exhibits which source the
`total` really comes from. -/
def dsC7 : DataSet := ⟨1, 1, 1, "D", "d", false, 5, "{}"⟩

/-- C7 counterexample store. -/
def stC7 : DataSetStore := ⟨[dsC7], [], 2, 1, 0⟩

/-- Entity id of the C7/C10 counterexample dataset. -/
def eDs : EntityId := ⟨1, 1, 1, "u"⟩

/-- C7, counterexample: the claim says `total` is sourced from the Aggregate
Counter field `countOfRecords`.  In `stC7` the counter field holds 5 while
no record rows exist, and `listDataSetRecordsPaginated` reports `total = 0`:
the implementation recounts the live record rows instead of reading the
counter. -/
theorem listPaginated_total_cex :
    (listDataSetRecordsPaginated stC7 eDs ⟨1, 10⟩).total = 0 ∧
      (dsFindById stC7 eDs).map DataSet.countOfRecords = some 5 := by
  constructor
  · decide
  · decide

theorem ceilDiv_bounds (t s : Nat) (hs : 1 ≤ s) :
    t ≤ s * ceilDiv t s ∧ s * ceilDiv t s < t + s := by
  have hdm := Nat.div_add_mod (t + s - 1) s
  have hm : (t + s - 1) % s < s := Nat.mod_lt _ (by omega)
  unfold ceilDiv
  omega

/-- C7, amended: for every store and every valid `(page ≥ 1, pageSize ≥ 1)`,
`listPaginated` returns a `total` equal to the live (non-deleted) record
count obtained by a fresh count query over the record rows (not read from
`countOfRecords`), and `totalPages = ceil(total / pageSize)` with
`totalPages = 0` when `total = 0`. -/
theorem listPaginated_amended (st : DataSetStore) (e : EntityId) (pg : Pagination)
    (_hp : 1 ≤ pg.page) (hs : 1 ≤ pg.pageSize) :
    (listDataSetRecordsPaginated st e pg).total =
        liveRecordCount st.records e.tenantId e.projectId e.id ∧
    (listDataSetRecordsPaginated st e pg).totalPages =
        ceilDiv (listDataSetRecordsPaginated st e pg).total pg.pageSize ∧
    ((listDataSetRecordsPaginated st e pg).total = 0 →
        (listDataSetRecordsPaginated st e pg).totalPages = 0) ∧
    (listDataSetRecordsPaginated st e pg).total ≤
        pg.pageSize * (listDataSetRecordsPaginated st e pg).totalPages ∧
    pg.pageSize * (listDataSetRecordsPaginated st e pg).totalPages <
        (listDataSetRecordsPaginated st e pg).total + pg.pageSize := by
  have htot : (listDataSetRecordsPaginated st e pg).total =
      liveRecordCount st.records e.tenantId e.projectId e.id := by
    show (st.records.filter (fun r => recordScopeWhere e r && !r.isDeleted)).length =
      liveRecordCount st.records e.tenantId e.projectId e.id
    rw [← List.countP_eq_length_filter]
    apply List.countP_congr
    intro r _
    simp [recordScopeWhere, Bool.and_assoc]
  have hpages : (listDataSetRecordsPaginated st e pg).totalPages =
      ceilDiv (listDataSetRecordsPaginated st e pg).total pg.pageSize := rfl
  refine ⟨htot, hpages, ?_, ?_, ?_⟩
  · intro h0
    rw [hpages, h0]
    unfold ceilDiv
    have : pg.pageSize - 1 < pg.pageSize := by omega
    simpa using Nat.div_eq_of_lt this
  · rw [hpages]
    exact (ceilDiv_bounds _ _ hs).1
  · rw [hpages]
    exact (ceilDiv_bounds _ _ hs).2

/-- C7 amended, witness: the amended statement evaluated at the drifted
counterexample store with `page = 1`, `pageSize = 10`. -/
theorem listPaginated_amended_witness :
    (listDataSetRecordsPaginated stC7 eDs ⟨1, 10⟩).total =
        liveRecordCount stC7.records eDs.tenantId eDs.projectId eDs.id ∧
    (listDataSetRecordsPaginated stC7 eDs ⟨1, 10⟩).totalPages =
        ceilDiv (listDataSetRecordsPaginated stC7 eDs ⟨1, 10⟩).total 10 ∧
    ((listDataSetRecordsPaginated stC7 eDs ⟨1, 10⟩).total = 0 →
        (listDataSetRecordsPaginated stC7 eDs ⟨1, 10⟩).totalPages = 0) ∧
    (listDataSetRecordsPaginated stC7 eDs ⟨1, 10⟩).total ≤
        10 * (listDataSetRecordsPaginated stC7 eDs ⟨1, 10⟩).totalPages ∧
    10 * (listDataSetRecordsPaginated stC7 eDs ⟨1, 10⟩).totalPages <
        (listDataSetRecordsPaginated stC7 eDs ⟨1, 10⟩).total + 10 :=
  listPaginated_amended stC7 eDs ⟨1, 10⟩ (by decide) (by decide)

/-! ## Claim C10: degenerate persisted schema strings -/

/-- `dsUpdateSchema` commutes with `dsFindById`: the schema write touches
neither the scope key columns nor `isDeleted`. -/
theorem dsFindById_updateSchema (st : DataSetStore) (e : EntityId) (s : String) :
    dsFindById (dsUpdateSchema st e s) e =
      Option.map (fun d => if dataSetWhere e d then { d with schema := s } else d)
        (dsFindById st e) := by
  apply find?_map_invariant
  intro a
  by_cases hc : dataSetWhere e a = true
  · rw [if_pos hc]
    rfl
  · rw [if_neg hc]

/-- `incrementRecordCountBy` with a nonzero amount commutes with
`dsFindById`. -/
theorem dsFindById_incrementBy (st : DataSetStore) (e : EntityId) (amount : Int)
    (h : ¬amount = 0) :
    dsFindById (incrementRecordCountBy st e amount) e =
      Option.map
        (fun d => if dataSetWhere e d then
          { d with countOfRecords := d.countOfRecords + amount } else d)
        (dsFindById st e) := by
  unfold incrementRecordCountBy
  rw [if_neg h]
  apply find?_map_invariant
  intro a
  by_cases hc : dataSetWhere e a = true
  · rw [if_pos hc]
    rfl
  · rw [if_neg hc]

/-- Dataset whose persisted schema string is a JSON array: valid JSON, not a
JSON object. -/
def dsC10 : DataSet := ⟨1, 1, 1, "D", "d", false, 0, "[\"string\"]"⟩

/-- C10 counterexample store. -/
def stC10 : DataSetStore := ⟨[dsC10], [], 2, 1, 0⟩

/-- C10, counterexample: the claim says any persisted schema string that is
not a JSON object is silently treated as the empty TypeMap and rebuilt from
the current record alone.  The schema string `["string"]` is valid JSON and
not a JSON object, yet `parseSchema` feeds it through the legacy per-key
branch, producing the field `0 : string`; after `createRecord` the persisted
schema therefore still carries that field instead of being rebuilt from the
record shape alone. -/
theorem parseSchema_cex :
    (∃ v, parseJson dsC10.schema = some v ∧ jsonIsObj v = false) ∧
    parseSchema dsC10.schema = [("0", tyObj "string")] ∧
    (∃ st' rec,
      createDataSetRecord stC10 eDs (Json.obj [("a", Json.str "x")]) = .ok (st', rec) ∧
      (dsFindById st' eDs).map DataSet.schema ≠
        some (stringifySchema (mergeSchema [] (Json.obj [("a", Json.str "x")])))) := by
  refine ⟨⟨Json.arr [Json.str "string"], rfl, rfl⟩, rfl, ?_⟩
  refine ⟨_, _, rfl, ?_⟩
  decide

/-- C10, amended: for every dataset whose persisted schema string is empty,
not valid JSON, or parses to `null` or to a non-object value
(boolean/number/string) — a JSON array instead goes through the legacy
per-key branch — `createRecord` and `addLogs` do not fail; the stored schema
is silently treated as the empty TypeMap, so the previously inferred schema
is discarded and rebuilt starting from the current record's shape alone. -/
theorem parseSchema_amended (st : DataSetStore) (e : EntityId) (ds : DataSet)
    (vars : Json) (gv : Nat → Option Json) (logIds : List Nat)
    (hfound : dsFindById st e = some ds)
    (hbad : ds.schema = "" ∨ parseJson ds.schema = none ∨
      ∃ v, parseJson ds.schema = some v ∧ (v = Json.null ∨ jsTypeof v ≠ "object")) :
    parseSchema ds.schema = [] ∧
    (∃ st' rec, createDataSetRecord st e vars = .ok (st', rec) ∧
      (dsFindById st' e).map DataSet.schema =
        some (stringifySchema (mergeSchema [] vars))) ∧
    (∃ res, addLogsToDataSet gv st e logIds = .ok res) := by
  have hparse : parseSchema ds.schema = [] := by
    unfold parseSchema
    rcases hbad with h0 | hn | ⟨v, hv, hbadv⟩
    · simp [h0]
    · by_cases h0 : ds.schema = ""
      · simp [h0]
      · simp [h0, hn]
    · by_cases h0 : ds.schema = ""
      · simp [h0]
      · rw [if_neg h0, hv]
        have hcond : ¬jsTruthy v ∨ jsTypeof v ≠ "object" := by
          rcases hbadv with rfl | hty
          · left
            simp [jsTruthy]
          · right
            exact hty
        dsimp only
        rw [if_pos hcond]
  have hwhere : dataSetWhere e ds = true := by
    have := List.find?_some hfound
    simp only [Bool.and_eq_true] at this
    exact this.1
  refine ⟨hparse, ?_, ?_⟩
  · have hstep :
        createDataSetRecord st e vars = Except.ok
          (dsUpdateSchema
            (incrementRecordCountBy
              (dsCreateMany st
                [{ tenantId := e.tenantId, projectId := e.projectId, dataSetId := e.id,
                   vars := stringifyJson vars, isDeleted := false }]).1 e 1)
            e (stringifySchema (mergeSchema (parseSchema ds.schema) vars)),
           { id := st.nextRecordId, tenantId := e.tenantId, projectId := e.projectId,
             dataSetId := e.id, vars := stringifyJson vars, isDeleted := false,
             createdAt := st.clock }) := by
      unfold createDataSetRecord
      rw [hfound]
      rfl
    refine ⟨_, _, hstep, ?_⟩
    clear hstep
    have hbase : dsFindById
        (dsCreateMany st
          [{ tenantId := e.tenantId, projectId := e.projectId, dataSetId := e.id,
             vars := stringifyJson vars, isDeleted := false }]).1 e = some ds := hfound
    rw [dsFindById_updateSchema, dsFindById_incrementBy _ _ _ (by decide), hbase]
    simp only [Option.map_some']
    rw [if_pos hwhere, if_pos (by simpa [dataSetWhere] using hwhere)]
    dsimp only
    rw [hparse]
  · unfold addLogsToDataSet
    rw [hfound]
    dsimp only
    rcases hr : addLogsLoop e (parseSchema ds.schema) [] 0 (List.map gv logIds)
      with ⟨sch, newRecs, skipCount⟩
    dsimp only
    by_cases hemp : newRecs.isEmpty = true
    · rw [if_pos hemp]
      exact ⟨_, rfl⟩
    · rw [if_neg hemp]
      exact ⟨_, rfl⟩

/-- C10 amended, witness: the amended statement evaluated at a concrete
dataset whose schema string is the invalid document `"bogus\x7b"`. -/
def dsC10w : DataSet := ⟨1, 1, 1, "D", "d", false, 0, "bogus\x7b"⟩

/-- C10 witness store. -/
def stC10w : DataSetStore := ⟨[dsC10w], [], 2, 1, 0⟩

/-- C10 amended, witness: concrete instantiation at `stC10w` with a
one-field record payload and a single skipped log id. -/
theorem parseSchema_amended_witness :
    parseSchema dsC10w.schema = [] ∧
    (∃ st' rec,
      createDataSetRecord stC10w eDs (Json.obj [("a", Json.str "x")]) = .ok (st', rec) ∧
      (dsFindById st' eDs).map DataSet.schema =
        some (stringifySchema (mergeSchema [] (Json.obj [("a", Json.str "x")])))) ∧
    (∃ res, addLogsToDataSet (fun _ => none) stC10w eDs [7] = .ok res) :=
  parseSchema_amended stC10w eDs dsC10w (Json.obj [("a", Json.str "x")]) (fun _ => none) [7]
    (by decide) (Or.inr (Or.inl rfl))

/-! ## Claim C5: the type-lattice join and monotonic widening -/

/-- The path currently carries type `T` or has already widened to
`"mixed"`: the invariant preserved by every later observation. -/
def TypeIs (fields : SchemaFields) (path T : String) : Prop :=
  ∃ v, getk fields path = some v ∧
    (jsStrProp v "type" = some T ∨ jsStrProp v "type" = some "mixed")

theorem jsStrProp_tyObj (t : String) : jsStrProp (tyObj t) "type" = some t := rfl

theorem mergeField_other (fields : SchemaFields) (path ty q : String) (h : path ≠ q) :
    getk (mergeField fields path ty) q = getk fields q := by
  unfold mergeField
  cases hg : getk fields path with
  | none => exact getk_setk_ne fields path q (tyObj ty) h
  | some existing =>
    dsimp only
    by_cases hcond : jsStrProp existing "type" ≠ some ty ∧
        jsStrProp existing "type" ≠ some "mixed"
    · rw [if_pos hcond]
      exact getk_setk_ne fields path q (tyObj "mixed") h
    · rw [if_neg hcond]

theorem mergeField_preserves_TypeIs (fields : SchemaFields) (p t path T : String)
    (h : TypeIs fields path T) : TypeIs (mergeField fields p t) path T := by
  obtain ⟨v, hv, hty⟩ := h
  by_cases hpq : p = path
  · subst hpq
    unfold mergeField
    rw [hv]
    dsimp only
    by_cases hcond : jsStrProp v "type" ≠ some t ∧ jsStrProp v "type" ≠ some "mixed"
    · rw [if_pos hcond]
      refine ⟨tyObj "mixed", getk_setk_self fields p (tyObj "mixed"), Or.inr rfl⟩
    · rw [if_neg hcond]
      exact ⟨v, hv, hty⟩
  · exact ⟨v, by rw [mergeField_other fields p t path hpq]; exact hv, hty⟩

theorem mergeField_hasPath (fields : SchemaFields) (p t q : String)
    (h : (getk fields q).isSome = true) :
    (getk (mergeField fields p t) q).isSome = true := by
  by_cases hpq : p = q
  · subst hpq
    unfold mergeField
    cases hg : getk fields p with
    | none => rw [hg] at h; exact absurd h (by simp)
    | some existing =>
      dsimp only
      by_cases hcond : jsStrProp existing "type" ≠ some t ∧
          jsStrProp existing "type" ≠ some "mixed"
      · rw [if_pos hcond, getk_setk_self]
        rfl
      · rw [if_neg hcond, hg]
        rfl
  · rw [mergeField_other fields p t q hpq]
    exact h

theorem foldPairs_preserves_TypeIs (pairs : List (String × String)) :
    ∀ (fields : SchemaFields) (path T : String), TypeIs fields path T →
      TypeIs (pairs.foldl (fun acc kv => mergeField acc kv.1 kv.2) fields) path T := by
  induction pairs with
  | nil => intro fields path T h; exact h
  | cons kv rest ih =>
    intro fields path T h
    exact ih _ path T (mergeField_preserves_TypeIs fields kv.1 kv.2 path T h)

theorem foldPairs_hasPath (pairs : List (String × String)) :
    ∀ (fields : SchemaFields) (q : String), (getk fields q).isSome = true →
      (getk (pairs.foldl (fun acc kv => mergeField acc kv.1 kv.2) fields) q).isSome = true := by
  induction pairs with
  | nil => intro fields q h; exact h
  | cons kv rest ih =>
    intro fields q h
    exact ih _ q (mergeField_hasPath fields kv.1 kv.2 q h)

theorem mergeSchema_preserves_TypeIs (fields : SchemaFields) (v : Json) (path T : String)
    (h : TypeIs fields path T) : TypeIs (mergeSchema fields v) path T :=
  foldPairs_preserves_TypeIs (collectFields v "") fields path T h

theorem foldRecords_preserves_TypeIs (vs : List Json) :
    ∀ (fields : SchemaFields) (path T : String), TypeIs fields path T →
      TypeIs (vs.foldl mergeSchema fields) path T := by
  induction vs with
  | nil => intro fields path T h; exact h
  | cons v rest ih =>
    intro fields path T h
    exact ih _ path T (mergeSchema_preserves_TypeIs fields v path T h)

theorem foldRecords_hasPath (vs : List Json) :
    ∀ (fields : SchemaFields) (q : String), (getk fields q).isSome = true →
      (getk (vs.foldl mergeSchema fields) q).isSome = true := by
  induction vs with
  | nil => intro fields q h; exact h
  | cons v rest ih =>
    intro fields q h
    exact ih _ q (foldPairs_hasPath (collectFields v "") fields q h)

/-- C5: the type-lattice join applied per observed `(path, type)` pair
satisfies: an absent path is inserted with the observed type; a path present
with the same type is unchanged; `"mixed"` is absorbing; a path present with
a different (non-mixed) type becomes `"mixed"`; hence once a path has type
`T`, after any further records its type is `T` or `"mixed"`, and a path is
never removed. -/
theorem mergeSchema_lattice (fields : SchemaFields) (path ty : String) :
    (getk fields path = none →
      mergeField fields path ty = fields ++ [(path, tyObj ty)] ∧
      getk (mergeField fields path ty) path = some (tyObj ty)) ∧
    (∀ v, getk fields path = some v → jsStrProp v "type" = some ty →
      mergeField fields path ty = fields) ∧
    (∀ v, getk fields path = some v → jsStrProp v "type" = some "mixed" →
      mergeField fields path ty = fields) ∧
    (∀ v, getk fields path = some v → jsStrProp v "type" ≠ some ty →
      jsStrProp v "type" ≠ some "mixed" →
      getk (mergeField fields path ty) path = some (tyObj "mixed")) ∧
    (∀ (vs : List Json) (T : String) (v : Json),
      getk fields path = some v → jsStrProp v "type" = some T →
      ∃ v2, getk (vs.foldl mergeSchema fields) path = some v2 ∧
        (jsStrProp v2 "type" = some T ∨ jsStrProp v2 "type" = some "mixed")) ∧
    (∀ (vs : List Json) (q : String), (getk fields q).isSome = true →
      (getk (vs.foldl mergeSchema fields) q).isSome = true) := by
  refine ⟨?_, ?_, ?_, ?_, ?_, ?_⟩
  · intro h
    constructor
    · unfold mergeField
      rw [h]
      exact setk_absent fields path (tyObj ty) h
    · unfold mergeField
      rw [h]
      exact getk_setk_self fields path (tyObj ty)
  · intro v hv hty
    unfold mergeField
    rw [hv]
    dsimp only
    rw [if_neg (by simp [hty])]
  · intro v hv hty
    unfold mergeField
    rw [hv]
    dsimp only
    rw [if_neg (by simp [hty])]
  · intro v hv hne hnm
    unfold mergeField
    rw [hv]
    dsimp only
    rw [if_pos ⟨hne, hnm⟩]
    exact getk_setk_self fields path (tyObj "mixed")
  · intro vs T v hv hty
    exact foldRecords_preserves_TypeIs vs fields path T ⟨v, hv, Or.inl hty⟩
  · intro vs q h
    exact foldRecords_hasPath vs fields q h

/-- C5 witness: starting from `{a : string}`, the scenario record
`{a: 5}` leaves path `a` at type `string` or `mixed` (concretely `mixed`),
via the widening conjunct applied at those concrete arguments. -/
theorem mergeSchema_lattice_witness :
    ∃ v2, getk ([Json.obj [("a", Json.num 5)]].foldl mergeSchema [("a", tyObj "string")])
        "a" = some v2 ∧
      (jsStrProp v2 "type" = some "string" ∨ jsStrProp v2 "type" = some "mixed") :=
  (mergeSchema_lattice [("a", tyObj "string")] "a" "number").2.2.2.2.1
    [Json.obj [("a", Json.num 5)]] "string" (tyObj "string") rfl rfl

/-! ## Claim C6: flattening versus the recursive reference definition -/

/-- Payload whose keys produce the same flattened path twice: the nested
`a.b` and the literal key `"a.b"`. -/
def vCexC6 : Json := Json.obj [("a", Json.obj [("b", Json.str "x")]), ("a.b", Json.num 1)]

/-- C6, counterexample: on a payload where a nested path and a literal
dotted key flatten to the same path, the reference definition produces both
pairs, while `collectFields` merges with `Object.assign` semantics and keeps
only the last one — so the flattening does not produce exactly the pairs of
the reference definition. -/
theorem collectFields_cex :
    ("a.b", "string") ∈ specFlattenPairs vCexC6 "" ∧
    ("a.b", "string") ∉ collectFields vCexC6 "" ∧
    collectFields vCexC6 "" ≠ specFlattenPairs vCexC6 "" := by
  refine ⟨by decide, by decide, by decide⟩

theorem sizeOf_mem_obj (kvs : List (String × Json)) (kv : String × Json) (h : kv ∈ kvs) :
    sizeOf kv.2 < sizeOf (Json.obj kvs) := by
  have h1 : sizeOf kv < sizeOf kvs := List.sizeOf_lt_of_mem h
  have h2 : sizeOf kv.2 < sizeOf kv := by
    obtain ⟨k, v⟩ := kv
    simp
  have h3 : sizeOf (Json.obj kvs) = 1 + sizeOf kvs := by simp
  omega

theorem collectFieldsEntries_eq_spec (l : List (String × Json)) (pre : String)
    (ih : ∀ kv ∈ l, ∀ q, collectFields kv.2 q = specFlattenAssign kv.2 q) :
    ∀ acc, collectFieldsEntries l pre acc = specFlattenAssignEntries l pre acc := by
  induction l with
  | nil => intro acc; rfl
  | cons kv rest ihl =>
    intro acc
    obtain ⟨key, v⟩ := kv
    rw [collectFieldsEntries, specFlattenAssignEntries]
    rw [ih ⟨key, v⟩ (by simp)]
    have : (if pre = "" then key else pre ++ "." ++ key) = joinPath pre key := rfl
    rw [this]
    exact ihl (fun kv2 h2 q => ih kv2 (List.mem_cons_of_mem _ h2) q) _

theorem collectFields_bounded_eq_spec (n : Nat) : ∀ (v : Json), sizeOf v ≤ n →
    ∀ pre, collectFields v pre = specFlattenAssign v pre := by
  induction n with
  | zero =>
    intro v hv
    exfalso
    cases v <;> simp at hv
  | succ n ihn =>
    intro v hv pre
    match v with
    | .null => rfl
    | .bool b => rfl
    | .num m => rfl
    | .str s => rfl
    | .arr xs => rfl
    | .obj [] =>
      rw [collectFields, specFlattenAssign]
      by_cases hpre : pre = ""
      · rw [if_neg (by simp [hpre]), if_pos hpre]
        rfl
      · rw [if_pos (by simp [hpre]), if_neg hpre, if_neg hpre]
    | .obj (kv :: rest) =>
      rw [collectFields, specFlattenAssign]
      rw [if_neg (by simp)]
      apply collectFieldsEntries_eq_spec
      intro kv2 h2 q
      apply ihn
      have hlt : sizeOf kv2.2 < sizeOf (Json.obj (kv :: rest)) :=
        sizeOf_mem_obj _ kv2 h2
      omega

/-- C6, amended: flattening produces exactly the `(path, type)` pairs of the
recursive reference definition with the pairs of successive keys accumulated
by last-wins property assignment (`Object.assign`): a later occurrence of an
already-produced path within one payload overwrites the earlier pair; all
other clauses (null, array, scalars, empty/non-empty object, the `"value"`
fallback) are as the claim states them. -/
theorem collectFields_amended (v : Json) (pre : String) :
    collectFields v pre = specFlattenAssign v pre :=
  collectFields_bounded_eq_spec (sizeOf v) v (Nat.le_refl _) pre

/-! ## Claims C1 and C2: update and setActiveVersion -/

theorem find?_append_none {α : Type} (l : List α) (x : α) (q : α → Bool)
    (h : l.find? q = none) (hx : q x = true) : (l ++ [x]).find? q = some x := by
  induction l with
  | nil => simp [List.find?, hx]
  | cons y ys ih =>
    rw [List.find?_cons] at h
    cases hq : q y
    · rw [hq] at h
      simp only [List.cons_append, List.find?_cons, hq]
      exact ih h
    · rw [hq] at h
      simp at h

theorem findPromptById_afterUpdateRow (st : PromptStore) (e : EntityId) (cur : Prompt)
    (h : findPromptById st e = some cur) (nm pv md bd : String) (lv : Nat) :
    findPromptById (updatePromptRow st e nm pv md bd lv) e =
      some { cur with name := nm, provider := pv, model := md, body := bd,
                      latestVersion := lv } := by
  unfold findPromptById updatePromptRow
  rw [find?_map_invariant]
  · rw [show st.prompts.find? (promptWhere e) = some cur from h]
    simp only [Option.map_some']
    rw [if_pos (List.find?_some h)]
  · intro a
    by_cases hc : promptWhere e a = true
    · rw [if_pos hc]
      rfl
    · rw [if_neg hc]

theorem findPromptRouter_afterUpdate (st : PromptStore) (e : EntityId) (r : PromptRouter)
    (hr : findPromptRouter st e = some r) (version : Nat) :
    findPromptRouter (updatePromptRouterVersion st e r.id version) e =
      some { r with version := version } := by
  unfold findPromptRouter updatePromptRouterVersion
  rw [find?_map_invariant]
  · rw [show st.promptRouters.find? (promptRouterWhere e) = some r from hr]
    simp only [Option.map_some']
    have hw := List.find?_some hr
    have hcond : (r.id == r.id && r.tenantId == e.tenantId && r.projectId == e.projectId)
        = true := by
      simp only [promptRouterWhere, Bool.and_eq_true] at hw
      simp only [Bool.and_eq_true]
      exact ⟨⟨by simp, hw.1.2⟩, hw.2⟩
    rw [if_pos hcond]
  · intro a
    by_cases hc : (a.id == r.id && a.tenantId == e.tenantId && a.projectId == e.projectId)
        = true
    · rw [if_pos hc]
      rfl
    · rw [if_neg hc]

/-- C2: `setActiveVersion(parentId, v)` fails with `VersionNotFound` when no
Ledger Entry at exactly version `v` exists for the parent under scope; when
one exists it sets the Router's version to `v` — creating the Router row if
absent, overwriting the existing row in place otherwise — and changes
nothing else: the Heads (hence `latestVersion`) and the Ledger are untouched
and no new Ledger Entry is created. -/
theorem setRouterVersion_spec (st : PromptStore) (e : EntityId) (v : Nat) :
    (findPromptVersion st e v = none →
      setRouterVersion st e v = .error "Version not found") ∧
    (∀ pv, findPromptVersion st e v = some pv →
      ∃ st', setRouterVersion st e v = .ok st' ∧
        (∃ r', findPromptRouter st' e = some r' ∧ r'.version = v) ∧
        st'.prompts = st.prompts ∧
        st'.promptVersions = st.promptVersions ∧
        (findPromptRouter st e = none →
          st'.promptRouters = st.promptRouters ++
            [{ id := st.nextRouterId, promptId := e.id, tenantId := e.tenantId,
               projectId := e.projectId, version := v }]) ∧
        (∀ r, findPromptRouter st e = some r →
          st'.promptRouters = st.promptRouters.map (fun r2 =>
            if r2.id == r.id && r2.tenantId == e.tenantId && r2.projectId == e.projectId
            then { r2 with version := v } else r2))) := by
  constructor
  · intro h
    unfold setRouterVersion
    rw [h]
  · intro pv hpv
    unfold setRouterVersion
    rw [hpv]
    dsimp only
    cases hrout : findPromptRouter st e with
    | some r =>
      refine ⟨_, rfl, ?_, rfl, rfl, ?_, ?_⟩
      · exact ⟨{ r with version := v }, findPromptRouter_afterUpdate st e r hrout v, rfl⟩
      · intro habs
        exact absurd habs (by simp)
      · intro r2 hr2
        cases hr2
        rfl
    | none =>
      refine ⟨_, rfl, ?_, rfl, rfl, ?_, ?_⟩
      · exact ⟨{ id := st.nextRouterId, promptId := e.id, tenantId := e.tenantId,
                 projectId := e.projectId, version := v },
          find?_append_none _ _ _ hrout (by simp [promptRouterWhere]), rfl⟩
      · intro _
        rfl
      · intro r2 hr2
        exact absurd hr2 (by simp)

/-- Ledger entry at version 1 in the scenario stores. -/
def demoVersion1 : PromptVersion := ⟨1, 1, 1, 1, 1, "X", "openai", "gpt", "b1", "x"⟩

/-- Store after the scenario rollback `setActiveVersion(1)`. -/
def demoStore3 : PromptStore :=
  match setRouterVersion demoStore2 demoEntity 1 with
  | .ok st => st
  | .error _ => demoStore0

/-- C2 witness: in the scenario store with `latestVersion = 2`, rolling the
router back to version 1 succeeds, repoints the router to 1 while Heads and
Ledger stay untouched, and afterwards `getActive` returns version 1's body
while `latestVersion` remains 2. -/
theorem setRouterVersion_spec_witness :
    (∃ st', setRouterVersion demoStore2 demoEntity 1 = .ok st' ∧
      (∃ r', findPromptRouter st' demoEntity = some r' ∧ r'.version = 1) ∧
      st'.prompts = demoStore2.prompts ∧
      st'.promptVersions = demoStore2.promptVersions ∧
      (findPromptRouter demoStore2 demoEntity = none →
        st'.promptRouters = demoStore2.promptRouters ++
          [{ id := demoStore2.nextRouterId, promptId := demoEntity.id,
             tenantId := demoEntity.tenantId, projectId := demoEntity.projectId,
             version := 1 }]) ∧
      (∀ r, findPromptRouter demoStore2 demoEntity = some r →
        st'.promptRouters = demoStore2.promptRouters.map (fun r2 =>
          if r2.id == r.id && r2.tenantId == demoEntity.tenantId &&
              r2.projectId == demoEntity.projectId
          then { r2 with version := 1 } else r2))) ∧
    (getActivePromptVersion demoStore3 demoEntity).map PromptVersion.body = some "b1" ∧
    (findPromptById demoStore3 demoEntity).map Prompt.latestVersion = some 2 :=
  ⟨(setRouterVersion_spec demoStore2 demoEntity 1).2 demoVersion1 (by decide),
   by decide, by decide⟩

/-- C1: for every prompt whose Head exists under the caller's tenancy scope,
`update` computes `newVersion = latestVersion + 1`, merges the partial input
over the current Head's fields (omitted fields keep their current value),
writes the merged fields and the new `latestVersion` back to the Head,
appends exactly one new Ledger Entry at `newVersion` carrying the merged
snapshot, and advances the Router to `newVersion`, creating the Router row
if absent; if no Head matches the scope, `update` fails with `NotFound` (and
the error is raised before any write). -/
theorem updatePrompt_spec (st : PromptStore) (e : EntityId) (input : UpdatePromptInput) :
    (findPromptById st e = none → svcUpdatePrompt st e input = .error "Prompt not found") ∧
    (∀ cur, findPromptById st e = some cur →
      ∃ st', svcUpdatePrompt st e input = .ok st' ∧
        findPromptById st' e = some
          { cur with name := input.name.getD cur.name,
                     provider := input.provider.getD cur.provider,
                     model := input.model.getD cur.model,
                     body := input.body.getD cur.body,
                     latestVersion := cur.latestVersion + 1 } ∧
        st'.promptVersions = st.promptVersions ++
          [{ id := st.nextVersionId, promptId := e.id, tenantId := e.tenantId,
             projectId := e.projectId, version := cur.latestVersion + 1,
             name := input.name.getD cur.name,
             provider := input.provider.getD cur.provider,
             model := input.model.getD cur.model,
             body := input.body.getD cur.body,
             slug := cur.slug }] ∧
        (∃ r', findPromptRouter st' e = some r' ∧ r'.version = cur.latestVersion + 1) ∧
        (findPromptRouter st e = none →
          st'.promptRouters = st.promptRouters ++
            [{ id := st.nextRouterId, promptId := e.id, tenantId := e.tenantId,
               projectId := e.projectId, version := cur.latestVersion + 1 }])) := by
  constructor
  · intro h
    unfold svcUpdatePrompt
    rw [h]
  · intro cur hcur
    unfold svcUpdatePrompt
    rw [hcur]
    dsimp only
    have hrouters2 :
        findPromptRouter (createPromptVersion (updatePromptRow st e
          (input.name.getD cur.name) (input.provider.getD cur.provider)
          (input.model.getD cur.model) (input.body.getD cur.body)
          (cur.latestVersion + 1))
          { promptId := e.id, tenantId := e.tenantId, projectId := e.projectId,
            version := cur.latestVersion + 1,
            name := input.name.getD cur.name,
            provider := input.provider.getD cur.provider,
            model := input.model.getD cur.model,
            body := input.body.getD cur.body,
            slug := cur.slug }).1 e = findPromptRouter st e := rfl
    rw [hrouters2]
    cases hrout : findPromptRouter st e with
    | some r =>
      refine ⟨_, rfl, ?_, rfl, ?_, ?_⟩
      · exact findPromptById_afterUpdateRow st e cur hcur _ _ _ _ _
      · exact ⟨{ r with version := cur.latestVersion + 1 },
          findPromptRouter_afterUpdate _ e r hrout (cur.latestVersion + 1), rfl⟩
      · intro habs
        exact absurd habs (by simp)
    | none =>
      refine ⟨_, rfl, ?_, rfl, ?_, ?_⟩
      · exact findPromptById_afterUpdateRow st e cur hcur _ _ _ _ _
      · exact ⟨{ id := st.nextRouterId, promptId := e.id, tenantId := e.tenantId,
                 projectId := e.projectId, version := cur.latestVersion + 1 },
          find?_append_none _ _ _ hrout (by simp [promptRouterWhere]), rfl⟩
      · intro _
        rfl

/-- C1 witness: updating the scenario prompt with `{body: "b2"}` merges the
partial input (name/provider/model retained), bumps `latestVersion` to 2,
appends exactly the version-2 ledger entry, and leaves the router pointing
at version 2. -/
theorem updatePrompt_spec_witness :
    ∃ st', svcUpdatePrompt demoStore1 demoEntity { body := some "b2" } = Except.ok st' ∧
      findPromptById st' demoEntity = some
        ⟨1, 1, 1, "X", "x", "openai", "gpt", "b2", 2, true⟩ ∧
      st'.promptVersions = demoStore1.promptVersions ++
        [⟨2, 1, 1, 1, 2, "X", "openai", "gpt", "b2", "x"⟩] ∧
      (∃ r', findPromptRouter st' demoEntity = some r' ∧ r'.version = 2) ∧
      (findPromptRouter demoStore1 demoEntity = none →
        st'.promptRouters = demoStore1.promptRouters ++ [⟨2, 1, 1, 1, 2⟩]) :=
  (updatePrompt_spec demoStore1 demoEntity { body := some "b2" }).2
    ⟨1, 1, 1, "X", "x", "openai", "gpt", "b1", 1, true⟩ (by decide)

/-! ## Claim C4: counter exactness -/

theorem incrementRecordCountBy_ne (st : DataSetStore) (e : EntityId) (amount : Int)
    (h : ¬amount = 0) :
    incrementRecordCountBy st e amount =
      { st with dataSets := st.dataSets.map (fun d =>
          if dataSetWhere e d then { d with countOfRecords := d.countOfRecords + amount }
          else d) } := by
  unfold incrementRecordCountBy
  rw [if_neg h]

theorem countP_singleton {α : Type} (x : α) (q : α → Bool) :
    List.countP q [x] = if q x then 1 else 0 := by
  rw [List.countP_cons]
  cases hq : q x <;> simp [hq, List.countP_nil]

theorem liveRecordCount_append_one (recs : List DataSetRecord) (newRec : DataSetRecord)
    (t p i : Nat) :
    liveRecordCount (recs ++ [newRec]) t p i =
      liveRecordCount recs t p i +
        (if newRec.tenantId == t && newRec.projectId == p &&
            newRec.dataSetId == i && !newRec.isDeleted then 1 else 0) := by
  unfold liveRecordCount
  rw [List.countP_append, countP_singleton]

theorem liveRecordCount_softDelete (recs : List DataSetRecord) (e : EntityId)
    (ids : List Nat) (t p i : Nat) :
    liveRecordCount (recs.map (fun r =>
        if softDeleteManyWhere e ids r then { r with isDeleted := true } else r)) t p i =
      recs.countP (fun r =>
        (r.tenantId == t && r.projectId == p && r.dataSetId == i && !r.isDeleted) &&
          !softDeleteManyWhere e ids r) := by
  unfold liveRecordCount
  rw [List.countP_map]
  apply List.countP_congr
  intro r _
  simp only [Function.comp_apply]
  by_cases hc : softDeleteManyWhere e ids r = true
  · rw [if_pos hc, hc]
    simp
  · have hcf : softDeleteManyWhere e ids r = false := by
      cases hcc : softDeleteManyWhere e ids r
      · rfl
      · exact absurd hcc hc
    rw [if_neg hc, hcf]
    simp

theorem createRec_preserves_inv (st : DataSetStore) (e : EntityId) (vars : Json)
    (hinv : CounterInv st) : CounterInv (applyDsOp st (DsOp.createRec e vars)) := by
  show CounterInv (match createDataSetRecord st e vars with
    | .ok p => p.1
    | .error _ => st)
  cases hfound : dsFindById st e with
  | none =>
    unfold createDataSetRecord
    rw [hfound]
    exact hinv
  | some ds =>
    unfold createDataSetRecord
    rw [hfound]
    dsimp only [dsCreateMany]
    rw [incrementRecordCountBy_ne _ _ _ (by decide)]
    unfold dsUpdateSchema
    intro d' hd'
    dsimp only at hd' ⊢
    rw [List.mem_map] at hd'
    obtain ⟨d1, hd1, rfl⟩ := hd'
    rw [List.mem_map] at hd1
    obtain ⟨d0, hd0, rfl⟩ := hd1
    have hmain := hinv d0 hd0
    by_cases hM : dataSetWhere e d0 = true
    · have hM2 : dataSetWhere e
          { d0 with countOfRecords := d0.countOfRecords + 1 } = true := hM
      simp only [hM, hM2, if_true]
      rw [liveRecordCount_append_one]
      dsimp only
      have hkey := hM
      simp only [dataSetWhere, Bool.and_eq_true, beq_iff_eq] at hkey
      have hcond : (e.tenantId == d0.tenantId && e.projectId == d0.projectId &&
          e.id == d0.id && !false) = true := by
        simp [hkey.1.1, hkey.1.2, hkey.2]
      simp only [hcond, if_true]
      push_cast
      omega
    · have hMf : dataSetWhere e d0 = false := by
        cases h2 : dataSetWhere e d0
        · rfl
        · exact absurd h2 hM
      simp only [hMf, Bool.false_eq_true, if_false]
      rw [liveRecordCount_append_one]
      dsimp only
      have hcond : (e.tenantId == d0.tenantId && e.projectId == d0.projectId &&
          e.id == d0.id && !false) = false := by
        cases hcc : (e.tenantId == d0.tenantId && e.projectId == d0.projectId &&
            e.id == d0.id && !false)
        · rfl
        · exfalso
          apply hM
          simp only [Bool.and_eq_true, beq_iff_eq] at hcc
          simp [dataSetWhere, hcc.1.1.1, hcc.1.1.2, hcc.1.2]
      simp only [hcond, Bool.false_eq_true, if_false]
      push_cast
      omega

theorem deleteRecs_preserves_inv (st : DataSetStore) (e : EntityId) (ids : List Nat)
    (hinv : CounterInv st) : CounterInv (applyDsOp st (DsOp.deleteRecs e ids)) := by
  show CounterInv (deleteDataSetRecords st e ids).1
  unfold deleteDataSetRecords dsSoftDeleteMany
  by_cases hids : ids.isEmpty = true
  · rw [if_pos hids]
    exact hinv
  · rw [if_neg hids]
    dsimp only
    by_cases hpos : st.records.countP (softDeleteManyWhere e ids) > 0
    · rw [if_pos hpos]
      rw [incrementRecordCountBy_ne _ _ _ (by intro habs; omega)]
      intro d' hd'
      dsimp only at hd' ⊢
      rw [List.mem_map] at hd'
      obtain ⟨d0, hd0, rfl⟩ := hd'
      have hmain := hinv d0 hd0
      have hlive : liveRecordCount st.records d0.tenantId d0.projectId d0.id =
          st.records.countP (fun r => r.tenantId == d0.tenantId &&
            r.projectId == d0.projectId && r.dataSetId == d0.id && !r.isDeleted) := rfl
      rw [hlive] at hmain
      have hsplit : st.records.countP (fun r => r.tenantId == d0.tenantId &&
            r.projectId == d0.projectId && r.dataSetId == d0.id && !r.isDeleted) =
          st.records.countP (fun r => (r.tenantId == d0.tenantId &&
            r.projectId == d0.projectId && r.dataSetId == d0.id && !r.isDeleted) &&
            softDeleteManyWhere e ids r) +
          st.records.countP (fun r => (r.tenantId == d0.tenantId &&
            r.projectId == d0.projectId && r.dataSetId == d0.id && !r.isDeleted) &&
            !softDeleteManyWhere e ids r) :=
        countP_split _ _ _
      by_cases hM : dataSetWhere e d0 = true
      · simp only [hM, if_true]
        rw [liveRecordCount_softDelete]
        have hMk := hM
        simp only [dataSetWhere, Bool.and_eq_true, beq_iff_eq] at hMk
        have hdel_key : ∀ r : DataSetRecord, softDeleteManyWhere e ids r = true →
            (r.tenantId == d0.tenantId && r.projectId == d0.projectId &&
              r.dataSetId == d0.id && !r.isDeleted) = true := by
          intro r hr
          simp only [softDeleteManyWhere, recordScopeWhere, Bool.and_eq_true,
            beq_iff_eq] at hr
          simp [hr.1.1.1.1, hr.1.1.1.2, hr.1.1.2, hr.2, hMk.1.1, hMk.1.2, hMk.2]
        have hsub : st.records.countP (fun r => (r.tenantId == d0.tenantId &&
              r.projectId == d0.projectId && r.dataSetId == d0.id && !r.isDeleted) &&
              softDeleteManyWhere e ids r) =
            st.records.countP (softDeleteManyWhere e ids) := by
          apply List.countP_congr
          intro r _
          constructor
          · intro h
            simp only [Bool.and_eq_true] at h
            exact h.2
          · intro h
            have hk := hdel_key r h
            simp only [Bool.and_eq_true] at hk
            simp only [Bool.and_eq_true]
            exact ⟨hk, h⟩
        rw [hsub] at hsplit
        omega
      · have hMf : dataSetWhere e d0 = false := by
          cases h2 : dataSetWhere e d0
          · rfl
          · exact absurd h2 hM
        simp only [hMf, Bool.false_eq_true, if_false]
        rw [liveRecordCount_softDelete]
        have hzero : st.records.countP (fun r => (r.tenantId == d0.tenantId &&
              r.projectId == d0.projectId && r.dataSetId == d0.id && !r.isDeleted) &&
              softDeleteManyWhere e ids r) = 0 := by
          rw [List.countP_eq_zero]
          intro r _ habs
          simp only [Bool.and_eq_true, beq_iff_eq] at habs
          have hd2 := habs.2
          simp only [softDeleteManyWhere, recordScopeWhere, Bool.and_eq_true,
            beq_iff_eq] at hd2
          apply hM
          simp only [dataSetWhere, Bool.and_eq_true, beq_iff_eq]
          refine ⟨⟨?_, ?_⟩, ?_⟩
          · rw [← habs.1.1.1.1]
            exact hd2.1.1.1.1
          · rw [← habs.1.1.1.2]
            exact hd2.1.1.1.2
          · rw [← habs.1.1.2]
            exact hd2.1.1.2
        rw [hzero] at hsplit
        omega
    · rw [if_neg hpos]
      intro d' hd'
      dsimp only at hd' ⊢
      rw [liveRecordCount_softDelete]
      have hmain := hinv d' hd'
      have hz : ∀ r ∈ st.records, ¬softDeleteManyWhere e ids r = true := by
        rw [← List.countP_eq_zero]
        omega
      have hcong : st.records.countP (fun r => (r.tenantId == d'.tenantId &&
            r.projectId == d'.projectId && r.dataSetId == d'.id && !r.isDeleted) &&
            !softDeleteManyWhere e ids r) =
          st.records.countP (fun r => r.tenantId == d'.tenantId &&
            r.projectId == d'.projectId && r.dataSetId == d'.id && !r.isDeleted) := by
        apply List.countP_congr
        intro r hr
        have hc0 : softDeleteManyWhere e ids r = false := by
          cases hc : softDeleteManyWhere e ids r
          · rfl
          · exact absurd hc (hz r hr)
        simp [hc0]
      rw [hcong]
      exact hmain

theorem runDsOps_preserves_inv (ops : List DsOp) :
    ∀ st : DataSetStore, CounterInv st → CounterInv (runDsOps st ops) := by
  induction ops with
  | nil => intro st h; exact h
  | cons op rest ih =>
    intro st h
    show CounterInv (runDsOps (applyDsOp st op) rest)
    apply ih
    cases op with
    | createRec e vars => exact createRec_preserves_inv st e vars h
    | deleteRecs e ids => exact deleteRecs_preserves_inv st e ids h

theorem createRec_count_delta (st : DataSetStore) (e : EntityId) (vars : Json)
    (ds : DataSet) (hfound : dsFindById st e = some ds) :
    ∃ st2 rec2, createDataSetRecord st e vars = Except.ok (st2, rec2) ∧
      ∃ ds', dsFindById st2 e = some ds' ∧
        ds'.countOfRecords = ds.countOfRecords + 1 := by
  have hwhere : dataSetWhere e ds = true := by
    have := List.find?_some hfound
    simp only [Bool.and_eq_true] at this
    exact this.1
  have hstep :
      createDataSetRecord st e vars = Except.ok
        (dsUpdateSchema
          (incrementRecordCountBy
            (dsCreateMany st
              [{ tenantId := e.tenantId, projectId := e.projectId, dataSetId := e.id,
                 vars := stringifyJson vars, isDeleted := false }]).1 e 1)
          e (stringifySchema (mergeSchema (parseSchema ds.schema) vars)),
         { id := st.nextRecordId, tenantId := e.tenantId, projectId := e.projectId,
           dataSetId := e.id, vars := stringifyJson vars, isDeleted := false,
           createdAt := st.clock }) := by
    unfold createDataSetRecord
    rw [hfound]
    rfl
  refine ⟨_, _, hstep, ?_⟩
  have hbase : dsFindById
      (dsCreateMany st
        [{ tenantId := e.tenantId, projectId := e.projectId, dataSetId := e.id,
           vars := stringifyJson vars, isDeleted := false }]).1 e = some ds := hfound
  rw [dsFindById_updateSchema, dsFindById_incrementBy _ _ _ (by decide), hbase]
  simp only [Option.map_some']
  rw [if_pos hwhere, if_pos (by simpa [dataSetWhere] using hwhere)]
  exact ⟨_, rfl, rfl⟩

theorem deleteRecs_count_delta (st : DataSetStore) (e : EntityId) (ids : List Nat) :
    (deleteDataSetRecords st e ids).2 =
        st.records.countP (softDeleteManyWhere e ids) ∧
    (∀ ds, dsFindById st e = some ds →
      ∃ ds', dsFindById (deleteDataSetRecords st e ids).1 e = some ds' ∧
        ds'.countOfRecords =
          ds.countOfRecords - ((deleteDataSetRecords st e ids).2 : Int)) ∧
    (ids = [] → deleteDataSetRecords st e ids = (st, 0)) := by
  by_cases hids : ids.isEmpty = true
  · have hids0 : ids = [] := by
      cases ids
      · rfl
      · simp [List.isEmpty] at hids
    subst hids0
    refine ⟨?_, ?_, fun _ => rfl⟩
    · show (0 : Nat) = st.records.countP (softDeleteManyWhere e [])
      rw [eq_comm, List.countP_eq_zero]
      intro r _
      simp [softDeleteManyWhere]
    · intro ds hfound
      refine ⟨ds, hfound, ?_⟩
      show ds.countOfRecords = ds.countOfRecords - ((0 : Nat) : Int)
      simp
  · have hp : deleteDataSetRecords st e ids =
        (if st.records.countP (softDeleteManyWhere e ids) > 0 then
          (incrementRecordCountBy
            { st with records := st.records.map (fun r =>
                if softDeleteManyWhere e ids r then { r with isDeleted := true } else r) }
            e (-(st.records.countP (softDeleteManyWhere e ids) : Int)),
           st.records.countP (softDeleteManyWhere e ids))
        else
          ({ st with records := st.records.map (fun r =>
              if softDeleteManyWhere e ids r then { r with isDeleted := true } else r) },
           st.records.countP (softDeleteManyWhere e ids))) := by
      unfold deleteDataSetRecords dsSoftDeleteMany
      rw [if_neg hids]
    by_cases hpos : st.records.countP (softDeleteManyWhere e ids) > 0
    · rw [hp, if_pos hpos]
      refine ⟨rfl, ?_, ?_⟩
      · intro ds hfound
        have hwhere : dataSetWhere e ds = true := by
          have := List.find?_some hfound
          simp only [Bool.and_eq_true] at this
          exact this.1
        have hbase : dsFindById
            { st with records := st.records.map (fun r =>
                if softDeleteManyWhere e ids r then { r with isDeleted := true } else r) }
            e = some ds := hfound
        rw [dsFindById_incrementBy _ _ _ (by intro habs; omega), hbase]
        simp only [Option.map_some']
        rw [if_pos hwhere]
        refine ⟨_, rfl, ?_⟩
        show ds.countOfRecords + -(_ : Int) = _
        omega
      · intro habs
        subst habs
        simp at hids
    · rw [hp, if_neg hpos]
      refine ⟨rfl, ?_, ?_⟩
      · intro ds hfound
        refine ⟨ds, hfound, ?_⟩
        show ds.countOfRecords = ds.countOfRecords - (_ : Int)
        omega
      · intro habs
        subst habs
        simp at hids

/-- C4: starting from any store satisfying the counter-exactness invariant,
every finite sequence of `createRecord` and `deleteRecords` calls preserves
`countOfRecords = number of live records` for every dataset; each successful
`createRecord` increments the target counter by exactly 1; each
`deleteRecords(ids)` returns and decrements by exactly the number of rows
that actually transitioned from live to deleted under the scoped
where-clause (already-deleted ids, foreign ids and out-of-scope ids are
skipped without error and without decrement); an empty id list is a no-op
returning zero. -/
theorem counter_exactness (st : DataSetStore) (e : EntityId) (vars : Json)
    (ids : List Nat) (ops : List DsOp) (hinv : CounterInv st) :
    CounterInv (runDsOps st ops) ∧
    (∀ ds, dsFindById st e = some ds →
      ∃ st2 rec2, createDataSetRecord st e vars = Except.ok (st2, rec2) ∧
        ∃ ds', dsFindById st2 e = some ds' ∧
          ds'.countOfRecords = ds.countOfRecords + 1) ∧
    (deleteDataSetRecords st e ids).2 =
        st.records.countP (softDeleteManyWhere e ids) ∧
    (∀ ds, dsFindById st e = some ds →
      ∃ ds', dsFindById (deleteDataSetRecords st e ids).1 e = some ds' ∧
        ds'.countOfRecords =
          ds.countOfRecords - ((deleteDataSetRecords st e ids).2 : Int)) ∧
    (ids = [] → deleteDataSetRecords st e ids = (st, 0)) :=
  ⟨runDsOps_preserves_inv ops st hinv,
   fun ds hfound => createRec_count_delta st e vars ds hfound,
   (deleteRecs_count_delta st e ids).1,
   (deleteRecs_count_delta st e ids).2.1,
   (deleteRecs_count_delta st e ids).2.2⟩

/-- Dataset store for the C4 witness: one live dataset, counter 0, no
records. -/
def stW4 : DataSetStore := ⟨[⟨1, 1, 1, "D", "d", false, 0, "{}"⟩], [], 2, 1, 0⟩

/-- Record payload for the C4 witness. -/
def varsW4 : Json := Json.obj [("a", Json.str "x")]

/-- Workload for the C4 witness: one create followed by one delete. -/
def opsW4 : List DsOp := [DsOp.createRec eDs varsW4, DsOp.deleteRecs eDs [1]]

/-- C4 witness: the exactness theorem applied at a concrete store, payload,
id list and workload, with the invariant discharged by evaluation. -/
theorem counter_exactness_witness :
    CounterInv (runDsOps stW4 opsW4) ∧
    (∀ ds, dsFindById stW4 eDs = some ds →
      ∃ st2 rec2, createDataSetRecord stW4 eDs varsW4 = Except.ok (st2, rec2) ∧
        ∃ ds', dsFindById st2 eDs = some ds' ∧
          ds'.countOfRecords = ds.countOfRecords + 1) ∧
    (deleteDataSetRecords stW4 eDs [1]).2 =
        stW4.records.countP (softDeleteManyWhere eDs [1]) ∧
    (∀ ds, dsFindById stW4 eDs = some ds →
      ∃ ds', dsFindById (deleteDataSetRecords stW4 eDs [1]).1 eDs = some ds' ∧
        ds'.countOfRecords =
          ds.countOfRecords - ((deleteDataSetRecords stW4 eDs [1]).2 : Int)) ∧
    ([1] = ([] : List Nat) → deleteDataSetRecords stW4 eDs [1] = (stW4, 0)) :=
  counter_exactness stW4 eDs varsW4 [1] opsW4 (by
    intro d hd
    simp only [stW4, List.mem_singleton] at hd
    subst hd
    decide)

/-! ## Claim C8: copyPrompt -/

/-- The n-th candidate name probed by `copyPrompt` (n = 1 is `" Copy"`,
n ≥ 2 is `" Copy N"`). -/
def copyName (srcName : String) (n : Nat) : String :=
  if n ≤ 1 then srcName ++ " Copy" else srcName ++ " Copy " ++ natRepr n

/-- The n-th candidate slug probed by `copyPrompt` (n = 1 is `"-copy"`,
n ≥ 2 is `"-copy-N"`). -/
def copySlug (srcSlug : String) (n : Nat) : String :=
  if n ≤ 1 then srcSlug ++ "-copy" else srcSlug ++ "-copy-" ++ natRepr n

theorem string_append_left_cancel {s t u : String} (h : s ++ t = s ++ u) : t = u := by
  apply String.ext
  have hd : s.data ++ t.data = s.data ++ u.data := by
    rw [← String.data_append, ← String.data_append, h]
  exact List.append_cancel_left hd

theorem copySlug_inj (s : String) (a b : Nat) (ha : 1 ≤ a) (hb : 1 ≤ b)
    (h : copySlug s a = copySlug s b) : a = b := by
  unfold copySlug at h
  by_cases h1 : a ≤ 1 <;> by_cases h2 : b ≤ 1
  · omega
  · rw [if_pos h1, if_neg h2, String.append_assoc] at h
    have h3 := string_append_left_cancel h
    have h4 : ("-copy" : String).length = ("-copy-" ++ natRepr b).length := by rw [h3]
    rw [String.length_append] at h4
    have h5 : ("-copy" : String).length = 5 := by decide
    have h6 : ("-copy-" : String).length = 6 := by decide
    omega
  · rw [if_neg h1, if_pos h2, String.append_assoc] at h
    have h3 := string_append_left_cancel h
    have h4 : ("-copy-" ++ natRepr a).length = ("-copy" : String).length := by rw [h3]
    rw [String.length_append] at h4
    have h5 : ("-copy" : String).length = 5 := by decide
    have h6 : ("-copy-" : String).length = 6 := by decide
    omega
  · rw [if_neg h1, if_neg h2, String.append_assoc, String.append_assoc] at h
    have h3 := string_append_left_cancel h
    have h4 := string_append_left_cancel h3
    exact natRepr_injective h4

theorem copyName_succ (sN : String) (n : Nat) (h : 1 ≤ n) :
    sN ++ " Copy " ++ natRepr (n + 1) = copyName sN (n + 1) := by
  unfold copyName
  rw [if_neg (by omega)]

theorem copySlug_succ (sS : String) (n : Nat) (h : 1 ≤ n) :
    sS ++ "-copy-" ++ natRepr (n + 1) = copySlug sS (n + 1) := by
  unfold copySlug
  rw [if_neg (by omega)]

theorem copySlugProbe_none (st : PromptStore) (pr : ProjectId) (sN sS : String) :
    ∀ (fuel n : Nat), 1 ≤ n →
      copySlugProbe st pr sN sS fuel n (copyName sN n) (copySlug sS n) = none →
      ∀ m, n ≤ m → m < n + fuel →
        (findPromptBySlug st pr (copySlug sS m)).isSome = true := by
  intro fuel
  induction fuel with
  | zero =>
    intro n hn hprobe m hm1 hm2
    omega
  | succ fuel ih =>
    intro n hn hprobe m hm1 hm2
    rw [copySlugProbe] at hprobe
    cases hfind : findPromptBySlug st pr (copySlug sS n) with
    | none =>
      rw [hfind] at hprobe
      exact absurd hprobe (by simp)
    | some q =>
      rw [hfind] at hprobe
      dsimp only at hprobe
      rw [copyName_succ sN n hn, copySlug_succ sS n hn] at hprobe
      by_cases hmn : m = n
      · rw [hmn, hfind]
        rfl
      · exact ih (n + 1) (by omega) hprobe m (by omega) (by omega)

theorem copySlugProbe_some (st : PromptStore) (pr : ProjectId) (sN sS : String) :
    ∀ (fuel n : Nat), 1 ≤ n → ∀ nm sl,
      copySlugProbe st pr sN sS fuel n (copyName sN n) (copySlug sS n) = some (nm, sl) →
      ∃ k, n ≤ k ∧ nm = copyName sN k ∧ sl = copySlug sS k ∧
        findPromptBySlug st pr (copySlug sS k) = none ∧
        ∀ m, n ≤ m → m < k → (findPromptBySlug st pr (copySlug sS m)).isSome = true := by
  intro fuel
  induction fuel with
  | zero =>
    intro n hn nm sl hprobe
    rw [copySlugProbe] at hprobe
    exact absurd hprobe (by simp)
  | succ fuel ih =>
    intro n hn nm sl hprobe
    rw [copySlugProbe] at hprobe
    cases hfind : findPromptBySlug st pr (copySlug sS n) with
    | none =>
      rw [hfind] at hprobe
      dsimp only at hprobe
      injection hprobe with hpair
      injection hpair with h1 h2
      exact ⟨n, Nat.le_refl n, h1.symm, h2.symm, hfind, fun m hm1 hm2 => by omega⟩
    | some q =>
      rw [hfind] at hprobe
      dsimp only at hprobe
      rw [copyName_succ sN n hn, copySlug_succ sS n hn] at hprobe
      obtain ⟨k, hk1, hk2, hk3, hk4, hk5⟩ := ih (n + 1) (by omega) nm sl hprobe
      refine ⟨k, by omega, hk2, hk3, hk4, ?_⟩
      intro m hm1 hm2
      by_cases hmn : m = n
      · rw [hmn, hfind]
        rfl
      · exact hk5 m (by omega) hm2

theorem copySlug_free_exists (st : PromptStore) (pr : ProjectId) (s : String) :
    ∃ k, 1 ≤ k ∧ k < 1 + (st.prompts.length + 1) ∧
      findPromptBySlug st pr (copySlug s k) = none := by
  by_contra hcon
  push_neg at hcon
  have htaken : ∀ i : Fin (st.prompts.length + 1),
      ∃ p, findPromptBySlug st pr (copySlug s (i.1 + 1)) = some p := by
    intro i
    have h := hcon (i.1 + 1) (by omega) (by omega)
    cases hf : findPromptBySlug st pr (copySlug s (i.1 + 1)) with
    | none => exact absurd hf h
    | some p => exact ⟨p, rfl⟩
  choose f hf using htaken
  have hmem : ∀ i, f i ∈ st.prompts := fun i => List.mem_of_find?_eq_some (hf i)
  have hinj : Function.Injective f := by
    intro i j hij
    have hsi := List.find?_some (hf i)
    have hsj := List.find?_some (hf j)
    simp only [Bool.and_eq_true, beq_iff_eq] at hsi hsj
    have hslug : copySlug s (i.1 + 1) = copySlug s (j.1 + 1) := by
      rw [← hsi.1.1, ← hsj.1.1, hij]
    have := copySlug_inj s _ _ (by omega) (by omega) hslug
    exact Fin.ext (by omega)
  have hcard : st.prompts.length + 1 ≤ st.prompts.length := by
    have h1 : (Finset.image f Finset.univ).card = st.prompts.length + 1 := by
      rw [Finset.card_image_of_injective _ hinj, Finset.card_univ, Fintype.card_fin]
    have h2 : Finset.image f Finset.univ ⊆ st.prompts.toFinset := by
      intro x hx
      simp only [Finset.mem_image] at hx
      obtain ⟨i, _, rfl⟩ := hx
      exact List.mem_toFinset.mpr (hmem i)
    calc st.prompts.length + 1 = (Finset.image f Finset.univ).card := h1.symm
      _ ≤ st.prompts.toFinset.card := Finset.card_le_card h2
      _ ≤ st.prompts.length := List.toFinset_card_le _
  omega

/-- C8: for every existing source prompt, `copy` derives the new name/slug
by appending `" Copy"`/`"-copy"`, probing `" Copy N"`/`"-copy-N"` for
increasing `N` from 2 sequentially within the same tenancy scope and
stopping at the first unused slug (every earlier candidate is taken, the
chosen one is free), and the copy is a brand-new parent with the next fresh
id, `latestVersion = 1`, the source's content, its own Ledger Entry at
version 1 and its own Router pointing at version 1. -/
theorem copyPrompt_spec (st : PromptStore) (e : EntityId) (src : Prompt)
    (hsrc : findPromptById st e = some src) :
    ∃ st' p n, copyPrompt st e = .ok (st', p) ∧ 1 ≤ n ∧
      p.name = copyName src.name n ∧ p.slug = copySlug src.slug n ∧
      findPromptBySlug st e.getProjectId (copySlug src.slug n) = none ∧
      (∀ m, 1 ≤ m → m < n →
        (findPromptBySlug st e.getProjectId (copySlug src.slug m)).isSome = true) ∧
      p.id = st.nextPromptId ∧ p.latestVersion = 1 ∧
      p.provider = src.provider ∧ p.model = src.model ∧ p.body = src.body ∧
      st'.prompts = st.prompts ++ [p] ∧
      st'.promptVersions = st.promptVersions ++
        [{ id := st.nextVersionId, promptId := p.id, tenantId := e.tenantId,
           projectId := e.projectId, version := 1, name := p.name,
           provider := src.provider, model := src.model, body := src.body,
           slug := p.slug }] ∧
      st'.promptRouters = st.promptRouters ++
        [{ id := st.nextRouterId, promptId := p.id, tenantId := e.tenantId,
           projectId := e.projectId, version := 1 }] := by
  have hstart : copySlugProbe st e.getProjectId src.name src.slug
      (st.prompts.length + 1) 1 (src.name ++ " Copy") (src.slug ++ "-copy") =
    copySlugProbe st e.getProjectId src.name src.slug
      (st.prompts.length + 1) 1 (copyName src.name 1) (copySlug src.slug 1) := rfl
  cases hres : copySlugProbe st e.getProjectId src.name src.slug
      (st.prompts.length + 1) 1 (copyName src.name 1) (copySlug src.slug 1) with
  | none =>
    exfalso
    obtain ⟨k, hk1, hk2, hk3⟩ := copySlug_free_exists st e.getProjectId src.slug
    have := copySlugProbe_none st e.getProjectId src.name src.slug
      (st.prompts.length + 1) 1 (by omega) hres k hk1 (by omega)
    rw [hk3] at this
    exact absurd this (by simp)
  | some pair =>
    obtain ⟨nm, sl⟩ := pair
    obtain ⟨k, hk1, hk2, hk3, hk4, hk5⟩ := copySlugProbe_some st e.getProjectId
      src.name src.slug (st.prompts.length + 1) 1 (by omega) nm sl hres
    have hok : copyPrompt st e = .ok
        ((createPromptRouter (createPromptVersion (createPrompt st
          { tenantId := e.tenantId, projectId := e.projectId, name := nm,
            slug := sl, provider := src.provider, model := src.model,
            body := src.body, latestVersion := 1, isActive := true }).1
          { promptId := st.nextPromptId, tenantId := e.tenantId,
            projectId := e.projectId, version := 1, name := nm,
            provider := src.provider, model := src.model, body := src.body,
            slug := sl }).1
          { promptId := st.nextPromptId, tenantId := e.tenantId,
            projectId := e.projectId, version := 1 }).1,
         { id := st.nextPromptId, tenantId := e.tenantId, projectId := e.projectId,
           name := nm, slug := sl, provider := src.provider, model := src.model,
           body := src.body, latestVersion := 1, isActive := true }) := by
      unfold copyPrompt
      rw [hsrc]
      dsimp only
      rw [hstart, hres]
      rfl
    refine ⟨_, _, k, hok, hk1, hk2, hk3, hk4, ?_, rfl, rfl, rfl, rfl, rfl, rfl, rfl, rfl⟩
    intro m hm1 hm2
    exact hk5 m hm1 hm2

/-- Fallback prompt row for scenario projections. -/
def promptFallback : Prompt := ⟨0, 0, 0, "", "", "", "", "", 0, false⟩

/-- First copy of the scenario prompt (source slug `"x"`). -/
def demoCopy1 : PromptStore × Prompt :=
  match copyPrompt demoStore1 demoEntity with
  | .ok p => p
  | .error _ => (demoStore0, promptFallback)

/-- Second copy of the same source prompt, run on the store that already
contains the first copy. -/
def demoCopy2 : PromptStore × Prompt :=
  match copyPrompt demoCopy1.1 demoEntity with
  | .ok p => p
  | .error _ => (demoStore0, promptFallback)

/-- C8 witness: the copy theorem applied at the scenario store, plus the
two-successive-copies scenario evaluated concretely — copying the prompt
with slug `"x"` twice yields slugs `"x-copy"` then `"x-copy-2"` (and names
`"X Copy"`, `"X Copy 2"`), each copy a fresh parent at `latestVersion 1`. -/
theorem copyPrompt_spec_witness :
    (∃ st' p n, copyPrompt demoStore1 demoEntity = .ok (st', p) ∧ 1 ≤ n ∧
      p.name = copyName "X" n ∧ p.slug = copySlug "x" n ∧
      findPromptBySlug demoStore1 demoEntity.getProjectId (copySlug "x" n) = none ∧
      (∀ m, 1 ≤ m → m < n →
        (findPromptBySlug demoStore1 demoEntity.getProjectId
          (copySlug "x" m)).isSome = true) ∧
      p.id = demoStore1.nextPromptId ∧ p.latestVersion = 1 ∧
      p.provider = "openai" ∧ p.model = "gpt" ∧ p.body = "b1" ∧
      st'.prompts = demoStore1.prompts ++ [p] ∧
      st'.promptVersions = demoStore1.promptVersions ++
        [{ id := demoStore1.nextVersionId, promptId := p.id,
           tenantId := demoEntity.tenantId, projectId := demoEntity.projectId,
           version := 1, name := p.name, provider := "openai", model := "gpt",
           body := "b1", slug := p.slug }] ∧
      st'.promptRouters = demoStore1.promptRouters ++
        [{ id := demoStore1.nextRouterId, promptId := p.id,
           tenantId := demoEntity.tenantId, projectId := demoEntity.projectId,
           version := 1 }]) ∧
    demoCopy1.2.slug = "x-copy" ∧ demoCopy1.2.name = "X Copy" ∧
    demoCopy2.2.slug = "x-copy-2" ∧ demoCopy2.2.name = "X Copy 2" ∧
    demoCopy1.2.latestVersion = 1 ∧ demoCopy2.2.latestVersion = 1 :=
  ⟨copyPrompt_spec demoStore1 demoEntity ⟨1, 1, 1, "X", "x", "openai", "gpt", "b1", 1, true⟩
      (by decide),
   by decide, by decide, by decide, by decide, by decide, by decide⟩

/-! ## Claim C9: tenant isolation -/

/-- Scope membership of a prompt row. -/
def pScope (t p : Nat) (x : Prompt) : Bool := x.tenantId == t && x.projectId == p

/-- Scope membership of a ledger row. -/
def vScope (t p : Nat) (x : PromptVersion) : Bool := x.tenantId == t && x.projectId == p

/-- Scope membership of a router row. -/
def rScope (t p : Nat) (x : PromptRouter) : Bool := x.tenantId == t && x.projectId == p

/-- Scope membership of a dataset row. -/
def dScope (t p : Nat) (x : DataSet) : Bool := x.tenantId == t && x.projectId == p

/-- Scope membership of a dataset record row. -/
def recScope (t p : Nat) (x : DataSetRecord) : Bool := x.tenantId == t && x.projectId == p

/-- Two prompt stores agree on everything a caller of scope `(t, p)` can
reach: the scoped rows of each table and the id counters.  Stores related by
this relation differ only in rows belonging to other scopes. -/
def PScopeEq (t p : Nat) (st₁ st₂ : PromptStore) : Prop :=
  st₁.prompts.filter (pScope t p) = st₂.prompts.filter (pScope t p) ∧
  st₁.promptVersions.filter (vScope t p) = st₂.promptVersions.filter (vScope t p) ∧
  st₁.promptRouters.filter (rScope t p) = st₂.promptRouters.filter (rScope t p) ∧
  st₁.nextPromptId = st₂.nextPromptId ∧
  st₁.nextVersionId = st₂.nextVersionId ∧
  st₁.nextRouterId = st₂.nextRouterId

/-- A prompt-store step leaves every row outside scope `(t, p)` untouched. -/
def POffFrame (t p : Nat) (st st' : PromptStore) : Prop :=
  st'.prompts.filter (fun x => !pScope t p x) =
    st.prompts.filter (fun x => !pScope t p x) ∧
  st'.promptVersions.filter (fun x => !vScope t p x) =
    st.promptVersions.filter (fun x => !vScope t p x) ∧
  st'.promptRouters.filter (fun x => !rScope t p x) =
    st.promptRouters.filter (fun x => !rScope t p x)

/-- Scoped agreement of dataset stores. -/
def DScopeEq (t p : Nat) (st₁ st₂ : DataSetStore) : Prop :=
  st₁.dataSets.filter (dScope t p) = st₂.dataSets.filter (dScope t p) ∧
  st₁.records.filter (recScope t p) = st₂.records.filter (recScope t p) ∧
  st₁.nextDataSetId = st₂.nextDataSetId ∧
  st₁.nextRecordId = st₂.nextRecordId ∧
  st₁.clock = st₂.clock

/-- A dataset-store step leaves every row outside scope `(t, p)` untouched. -/
def DOffFrame (t p : Nat) (st st' : DataSetStore) : Prop :=
  st'.dataSets.filter (fun x => !dScope t p x) =
    st.dataSets.filter (fun x => !dScope t p x) ∧
  st'.records.filter (fun x => !recScope t p x) =
    st.records.filter (fun x => !recScope t p x)

/-- Scoped agreement of fallible prompt-store results: both fail with the
same message, or both succeed with scope-equal stores. -/
def PResultEq (t p : Nat) : Except String PromptStore → Except String PromptStore → Prop
  | .ok a, .ok b => PScopeEq t p a b
  | .error m₁, .error m₂ => m₁ = m₂
  | _, _ => False

/-- Scoped agreement of fallible (store, value) results with equal values. -/
def PPairResultEq (t p : Nat) :
    Except String (PromptStore × Prompt) → Except String (PromptStore × Prompt) → Prop
  | .ok a, .ok b => PScopeEq t p a.1 b.1 ∧ a.2 = b.2
  | .error m₁, .error m₂ => m₁ = m₂
  | _, _ => False

/-- Scoped agreement of fallible dataset (store, record) results. -/
def DPairResultEq (t p : Nat) :
    Except String (DataSetStore × DataSetRecord) →
      Except String (DataSetStore × DataSetRecord) → Prop
  | .ok a, .ok b => DScopeEq t p a.1 b.1 ∧ a.2 = b.2
  | .error m₁, .error m₂ => m₁ = m₂
  | _, _ => False

theorem filter_updateWhere_eq {α : Type} (l₁ l₂ : List α) (sc q : α → Bool) (f : α → α)
    (hpres : ∀ a, sc (f a) = sc a)
    (heq : l₁.filter sc = l₂.filter sc) :
    (l₁.map (fun a => if q a then f a else a)).filter sc =
      (l₂.map (fun a => if q a then f a else a)).filter sc := by
  have hg : ∀ a, sc (if q a then f a else a) = sc a := by
    intro a
    by_cases hq : q a = true
    · rw [if_pos hq, hpres]
    · rw [if_neg hq]
  rw [filter_map_comm _ _ _ hg, filter_map_comm _ _ _ hg, heq]

theorem filter_updateWhere_frame {α : Type} (l : List α) (sc q : α → Bool) (f : α → α)
    (himp : ∀ a, q a = true → sc a = true)
    (hpres : ∀ a, sc (f a) = sc a) :
    (l.map (fun a => if q a then f a else a)).filter (fun a => !sc a) =
      l.filter (fun a => !sc a) := by
  apply filter_map_id
  · intro a
    by_cases hq : q a = true
    · rw [if_pos hq, hpres]
    · rw [if_neg hq]
  · intro a ha
    rw [if_neg]
    intro hq
    rw [himp a hq] at ha
    cases ha

theorem filter_append_scoped {α : Type} (l₁ l₂ : List α) (sc : α → Bool) (x : α)
    (heq : l₁.filter sc = l₂.filter sc) :
    (l₁ ++ [x]).filter sc = (l₂ ++ [x]).filter sc := by
  rw [List.filter_append, List.filter_append, heq]

theorem filter_append_frame {α : Type} (l : List α) (sc : α → Bool) (x : α)
    (hx : sc x = true) :
    (l ++ [x]).filter (fun a => !sc a) = l.filter (fun a => !sc a) := by
  rw [List.filter_append]
  simp [hx]

theorem find?_scopeEq {α : Type} (l₁ l₂ : List α) (sc q : α → Bool)
    (himp : ∀ a, q a = true → sc a = true)
    (heq : l₁.filter sc = l₂.filter sc) :
    l₁.find? q = l₂.find? q := by
  rw [find?_restrict l₁ q sc himp, heq, ← find?_restrict l₂ q sc himp]

theorem filter_scopeEq {α : Type} (l₁ l₂ : List α) (sc q : α → Bool)
    (himp : ∀ a, q a = true → sc a = true)
    (heq : l₁.filter sc = l₂.filter sc) :
    l₁.filter q = l₂.filter q := by
  rw [filter_restrict l₁ q sc himp, heq, ← filter_restrict l₂ q sc himp]

theorem findPromptById_scopeEq (e : EntityId) (st₁ st₂ : PromptStore)
    (h : st₁.prompts.filter (pScope e.tenantId e.projectId) =
      st₂.prompts.filter (pScope e.tenantId e.projectId)) :
    findPromptById st₁ e = findPromptById st₂ e := by
  apply find?_scopeEq _ _ _ _ _ h
  intro a ha
  simp only [promptWhere, Bool.and_eq_true] at ha
  simp [pScope, ha.1.1, ha.1.2]

theorem findPromptBySlug_scopeEq (pr : ProjectId) (s : String) (st₁ st₂ : PromptStore)
    (h : st₁.prompts.filter (pScope pr.tenantId pr.id) =
      st₂.prompts.filter (pScope pr.tenantId pr.id)) :
    findPromptBySlug st₁ pr s = findPromptBySlug st₂ pr s := by
  apply find?_scopeEq _ _ _ _ _ h
  intro a ha
  simp only [Bool.and_eq_true] at ha
  simp [pScope, ha.1.2, ha.2]

theorem findPromptVersion_scopeEq (e : EntityId) (v : Nat) (st₁ st₂ : PromptStore)
    (h : st₁.promptVersions.filter (vScope e.tenantId e.projectId) =
      st₂.promptVersions.filter (vScope e.tenantId e.projectId)) :
    findPromptVersion st₁ e v = findPromptVersion st₂ e v := by
  apply find?_scopeEq _ _ _ _ _ h
  intro a ha
  simp only [promptVersionWhere, Bool.and_eq_true] at ha
  simp [vScope, ha.1.1.2, ha.1.2]

theorem findPromptRouter_scopeEq (e : EntityId) (st₁ st₂ : PromptStore)
    (h : st₁.promptRouters.filter (rScope e.tenantId e.projectId) =
      st₂.promptRouters.filter (rScope e.tenantId e.projectId)) :
    findPromptRouter st₁ e = findPromptRouter st₂ e := by
  apply find?_scopeEq _ _ _ _ _ h
  intro a ha
  simp only [promptRouterWhere, Bool.and_eq_true] at ha
  simp [rScope, ha.1.2, ha.2]

theorem dsFindById_scopeEq (e : EntityId) (st₁ st₂ : DataSetStore)
    (h : st₁.dataSets.filter (dScope e.tenantId e.projectId) =
      st₂.dataSets.filter (dScope e.tenantId e.projectId)) :
    dsFindById st₁ e = dsFindById st₂ e := by
  apply find?_scopeEq _ _ _ _ _ h
  intro a ha
  simp only [dataSetWhere, Bool.and_eq_true] at ha
  simp [dScope, ha.1.1.1, ha.1.1.2]

theorem getActive_scopeEq (e : EntityId) (st₁ st₂ : PromptStore)
    (h : PScopeEq e.tenantId e.projectId st₁ st₂) :
    getActivePromptVersion st₁ e = getActivePromptVersion st₂ e := by
  unfold getActivePromptVersion
  rw [findPromptRouter_scopeEq e st₁ st₂ h.2.2.1]
  cases findPromptRouter st₂ e with
  | none => rfl
  | some r =>
    dsimp only
    rw [findPromptVersion_scopeEq e r.version st₁ st₂ h.2.1]

theorem promptWhere_scope (e : EntityId) :
    ∀ a, promptWhere e a = true → pScope e.tenantId e.projectId a = true := by
  intro a ha
  simp only [promptWhere, Bool.and_eq_true] at ha
  simp [pScope, ha.1.1, ha.1.2]

theorem promptVersionWhere_scope (e : EntityId) (v : Nat) :
    ∀ a, promptVersionWhere e v a = true → vScope e.tenantId e.projectId a = true := by
  intro a ha
  simp only [promptVersionWhere, Bool.and_eq_true] at ha
  simp [vScope, ha.1.1.2, ha.1.2]

theorem promptRouterWhere_scope (e : EntityId) :
    ∀ a, promptRouterWhere e a = true → rScope e.tenantId e.projectId a = true := by
  intro a ha
  simp only [promptRouterWhere, Bool.and_eq_true] at ha
  simp [rScope, ha.1.2, ha.2]

theorem routerUpdateWhere_scope (e : EntityId) (routerId : Nat) :
    ∀ a : PromptRouter,
      (a.id == routerId && a.tenantId == e.tenantId && a.projectId == e.projectId) = true →
      rScope e.tenantId e.projectId a = true := by
  intro a ha
  simp only [Bool.and_eq_true] at ha
  simp [rScope, ha.1.2, ha.2]

theorem dataSetWhere_scope (e : EntityId) :
    ∀ a, dataSetWhere e a = true → dScope e.tenantId e.projectId a = true := by
  intro a ha
  simp only [dataSetWhere, Bool.and_eq_true] at ha
  simp [dScope, ha.1.1, ha.1.2]

theorem recordLiveWhere_scope (e : EntityId) :
    ∀ a : DataSetRecord, (recordScopeWhere e a && !a.isDeleted) = true →
      recScope e.tenantId e.projectId a = true := by
  intro a ha
  simp only [recordScopeWhere, Bool.and_eq_true] at ha
  simp [recScope, ha.1.1.1, ha.1.1.2]

theorem softDeleteManyWhere_scope (e : EntityId) (recordIds : List Nat) :
    ∀ a, softDeleteManyWhere e recordIds a = true →
      recScope e.tenantId e.projectId a = true := by
  intro a ha
  simp only [softDeleteManyWhere, recordScopeWhere, Bool.and_eq_true] at ha
  simp [recScope, ha.1.1.1.1, ha.1.1.1.2]

theorem setRouterVersion_scopeEq (st₁ st₂ : PromptStore) (e : EntityId) (version : Nat)
    (h : PScopeEq e.tenantId e.projectId st₁ st₂) :
    PResultEq e.tenantId e.projectId (setRouterVersion st₁ e version)
      (setRouterVersion st₂ e version) := by
  obtain ⟨hP, hV, hR, hNP, hNV, hNR⟩ := h
  unfold setRouterVersion
  rw [findPromptVersion_scopeEq e version st₁ st₂ hV]
  cases findPromptVersion st₂ e version with
  | none => exact rfl
  | some pv =>
    dsimp only
    rw [findPromptRouter_scopeEq e st₁ st₂ hR]
    cases findPromptRouter st₂ e with
    | some r =>
      dsimp only [updatePromptRouterVersion]
      exact ⟨hP, hV,
        filter_updateWhere_eq st₁.promptRouters st₂.promptRouters _ _ _ (fun a => rfl) hR,
        hNP, hNV, hNR⟩
    | none =>
      dsimp only [createPromptRouter]
      refine ⟨hP, hV, ?_, hNP, hNV, congrArg Nat.succ hNR⟩
      rw [hNR]
      exact filter_append_scoped _ _ _ _ hR

theorem setRouterVersion_frame (st : PromptStore) (e : EntityId) (version : Nat)
    (st' : PromptStore) (hok : setRouterVersion st e version = .ok st') :
    POffFrame e.tenantId e.projectId st st' := by
  unfold setRouterVersion at hok
  cases hfv : findPromptVersion st e version with
  | none => rw [hfv] at hok; cases hok
  | some pv =>
    rw [hfv] at hok
    dsimp only at hok
    cases hfr : findPromptRouter st e with
    | some r =>
      rw [hfr] at hok
      dsimp only [updatePromptRouterVersion] at hok
      cases hok
      exact ⟨rfl, rfl,
        filter_updateWhere_frame st.promptRouters _ _ _
          (routerUpdateWhere_scope e r.id) (fun a => rfl)⟩
    | none =>
      rw [hfr] at hok
      dsimp only [createPromptRouter] at hok
      cases hok
      exact ⟨rfl, rfl, filter_append_frame st.promptRouters _ _ (by simp [rScope])⟩

theorem svcUpdatePrompt_scopeEq (st₁ st₂ : PromptStore) (e : EntityId)
    (input : UpdatePromptInput) (h : PScopeEq e.tenantId e.projectId st₁ st₂) :
    PResultEq e.tenantId e.projectId (svcUpdatePrompt st₁ e input)
      (svcUpdatePrompt st₂ e input) := by
  obtain ⟨hP, hV, hR, hNP, hNV, hNR⟩ := h
  unfold svcUpdatePrompt
  rw [findPromptById_scopeEq e st₁ st₂ hP]
  cases findPromptById st₂ e with
  | none => exact rfl
  | some cur =>
    dsimp only [updatePromptRow, createPromptVersion, findPromptRouter]
    have hfr : List.find? (promptRouterWhere e) st₁.promptRouters =
        List.find? (promptRouterWhere e) st₂.promptRouters :=
      find?_scopeEq _ _ _ _ (promptRouterWhere_scope e) hR
    rw [hfr]
    cases List.find? (promptRouterWhere e) st₂.promptRouters with
    | some r =>
      dsimp only [updatePromptRouterVersion]
      refine ⟨filter_updateWhere_eq st₁.prompts st₂.prompts _ _ _ (fun a => rfl) hP,
        ?_,
        filter_updateWhere_eq st₁.promptRouters st₂.promptRouters _ _ _ (fun a => rfl) hR,
        hNP, congrArg Nat.succ hNV, hNR⟩
      rw [hNV]
      exact filter_append_scoped _ _ _ _ hV
    | none =>
      dsimp only [createPromptRouter]
      refine ⟨filter_updateWhere_eq st₁.prompts st₂.prompts _ _ _ (fun a => rfl) hP,
        ?_, ?_, hNP, congrArg Nat.succ hNV, congrArg Nat.succ hNR⟩
      · rw [hNV]
        exact filter_append_scoped _ _ _ _ hV
      · rw [hNR]
        exact filter_append_scoped _ _ _ _ hR

theorem svcUpdatePrompt_frame (st : PromptStore) (e : EntityId)
    (input : UpdatePromptInput) (st' : PromptStore)
    (hok : svcUpdatePrompt st e input = .ok st') :
    POffFrame e.tenantId e.projectId st st' := by
  unfold svcUpdatePrompt at hok
  cases hcur : findPromptById st e with
  | none => rw [hcur] at hok; cases hok
  | some cur =>
    rw [hcur] at hok
    dsimp only [updatePromptRow, createPromptVersion, findPromptRouter] at hok
    cases hfr : List.find? (promptRouterWhere e) st.promptRouters with
    | some r =>
      rw [hfr] at hok
      dsimp only [updatePromptRouterVersion] at hok
      cases hok
      exact ⟨filter_updateWhere_frame st.prompts _ _ _ (promptWhere_scope e) (fun a => rfl),
        filter_append_frame st.promptVersions _ _ (by simp [vScope]),
        filter_updateWhere_frame st.promptRouters _ _ _
          (routerUpdateWhere_scope e r.id) (fun a => rfl)⟩
    | none =>
      rw [hfr] at hok
      dsimp only [createPromptRouter] at hok
      cases hok
      exact ⟨filter_updateWhere_frame st.prompts _ _ _ (promptWhere_scope e) (fun a => rfl),
        filter_append_frame st.promptVersions _ _ (by simp [vScope]),
        filter_append_frame st.promptRouters _ _ (by simp [rScope])⟩

theorem findPromptById_renameRow (st : PromptStore) (e : EntityId) (name gs : String) :
    findPromptById (renamePromptRow st e name gs) e =
      Option.map (fun p => if promptWhere e p then { p with name := name, slug := gs } else p)
        (findPromptById st e) := by
  apply find?_map_invariant
  intro a
  by_cases hc : promptWhere e a = true
  · rw [if_pos hc]
    rfl
  · rw [if_neg hc]

theorem renameBody_scopeEq (st₁ st₂ : PromptStore) (e : EntityId) (name gs : String)
    (hP : st₁.prompts.filter (pScope e.tenantId e.projectId) =
      st₂.prompts.filter (pScope e.tenantId e.projectId))
    (hV : st₁.promptVersions.filter (vScope e.tenantId e.projectId) =
      st₂.promptVersions.filter (vScope e.tenantId e.projectId))
    (hR : st₁.promptRouters.filter (rScope e.tenantId e.projectId) =
      st₂.promptRouters.filter (rScope e.tenantId e.projectId))
    (hNP : st₁.nextPromptId = st₂.nextPromptId)
    (hNV : st₁.nextVersionId = st₂.nextVersionId)
    (hNR : st₁.nextRouterId = st₂.nextRouterId) :
    PPairResultEq e.tenantId e.projectId
      (match findPromptById (renamePromptRow st₁ e name gs) e with
       | none => .error "Failed to retrieve updated prompt"
       | some up => .ok (renamePromptRow st₁ e name gs, up))
      (match findPromptById (renamePromptRow st₂ e name gs) e with
       | none => .error "Failed to retrieve updated prompt"
       | some up => .ok (renamePromptRow st₂ e name gs, up)) := by
  rw [findPromptById_renameRow, findPromptById_renameRow,
    findPromptById_scopeEq e st₁ st₂ hP]
  cases findPromptById st₂ e with
  | none => exact rfl
  | some cur =>
    dsimp only [Option.map, renamePromptRow]
    exact ⟨⟨filter_updateWhere_eq st₁.prompts st₂.prompts _ _ _ (fun a => rfl) hP,
      hV, hR, hNP, hNV, hNR⟩, rfl⟩

theorem renamePrompt_scopeEq (st₁ st₂ : PromptStore) (e : EntityId) (name : String)
    (h : PScopeEq e.tenantId e.projectId st₁ st₂) :
    PPairResultEq e.tenantId e.projectId (renamePrompt st₁ e name)
      (renamePrompt st₂ e name) := by
  obtain ⟨hP, hV, hR, hNP, hNV, hNR⟩ := h
  unfold renamePrompt
  rw [findPromptById_scopeEq e st₁ st₂ hP]
  cases findPromptById st₂ e with
  | none => exact rfl
  | some cur =>
    dsimp only
    rw [findPromptBySlug_scopeEq e.getProjectId (generateSlug name) st₁ st₂ hP]
    cases findPromptBySlug st₂ e.getProjectId (generateSlug name) with
    | some conflict =>
      dsimp only
      by_cases hid : conflict.id ≠ e.id
      · rw [if_pos hid, if_pos hid]
        exact rfl
      · rw [if_neg hid, if_neg hid]
        exact renameBody_scopeEq st₁ st₂ e name (generateSlug name) hP hV hR hNP hNV hNR
    | none =>
      exact renameBody_scopeEq st₁ st₂ e name (generateSlug name) hP hV hR hNP hNV hNR

theorem renamePrompt_frame (st : PromptStore) (e : EntityId) (name : String)
    (st' : PromptStore) (p : Prompt) (hok : renamePrompt st e name = .ok (st', p)) :
    POffFrame e.tenantId e.projectId st st' := by
  have hbody : ∀ q : Prompt,
      (match findPromptById (renamePromptRow st e name (generateSlug name)) e with
       | none => (.error "Failed to retrieve updated prompt" :
           Except String (PromptStore × Prompt))
       | some up => .ok (renamePromptRow st e name (generateSlug name), up)) =
        .ok (st', p) → POffFrame e.tenantId e.projectId st st' := by
    intro _ hb
    cases hup : findPromptById (renamePromptRow st e name (generateSlug name)) e with
    | none => rw [hup] at hb; cases hb
    | some up =>
      rw [hup] at hb
      dsimp only at hb
      cases hb
      exact ⟨filter_updateWhere_frame st.prompts _ _ _ (promptWhere_scope e) (fun a => rfl),
        rfl, rfl⟩
  unfold renamePrompt at hok
  cases hcur : findPromptById st e with
  | none => rw [hcur] at hok; cases hok
  | some cur =>
    rw [hcur] at hok
    dsimp only at hok
    cases hconf : findPromptBySlug st e.getProjectId (generateSlug name) with
    | some conflict =>
      rw [hconf] at hok
      dsimp only at hok
      by_cases hid : conflict.id ≠ e.id
      · rw [if_pos hid] at hok
        cases hok
      · rw [if_neg hid] at hok
        exact hbody p hok
    | none =>
      rw [hconf] at hok
      exact hbody p hok

theorem copySlugProbe_scopeEq (st₁ st₂ : PromptStore) (pr : ProjectId) (sN sS : String)
    (h : st₁.prompts.filter (pScope pr.tenantId pr.id) =
      st₂.prompts.filter (pScope pr.tenantId pr.id)) :
    copySlugProbe st₁ pr sN sS (st₁.prompts.length + 1) 1
        (copyName sN 1) (copySlug sS 1) =
      copySlugProbe st₂ pr sN sS (st₂.prompts.length + 1) 1
        (copyName sN 1) (copySlug sS 1) := by
  have hslug : ∀ s, findPromptBySlug st₁ pr s = findPromptBySlug st₂ pr s :=
    fun s => findPromptBySlug_scopeEq pr s st₁ st₂ h
  cases hres₁ : copySlugProbe st₁ pr sN sS (st₁.prompts.length + 1) 1
      (copyName sN 1) (copySlug sS 1) with
  | none =>
    exfalso
    obtain ⟨k, hk1, hk2, hk3⟩ := copySlug_free_exists st₁ pr sS
    have hk := copySlugProbe_none st₁ pr sN sS (st₁.prompts.length + 1) 1
      (by omega) hres₁ k hk1 (by omega)
    rw [hk3] at hk
    exact absurd hk (by simp)
  | some pair₁ =>
    cases hres₂ : copySlugProbe st₂ pr sN sS (st₂.prompts.length + 1) 1
        (copyName sN 1) (copySlug sS 1) with
    | none =>
      exfalso
      obtain ⟨k, hk1, hk2, hk3⟩ := copySlug_free_exists st₂ pr sS
      have hk := copySlugProbe_none st₂ pr sN sS (st₂.prompts.length + 1) 1
        (by omega) hres₂ k hk1 (by omega)
      rw [hk3] at hk
      exact absurd hk (by simp)
    | some pair₂ =>
      obtain ⟨nm₁, sl₁⟩ := pair₁
      obtain ⟨nm₂, sl₂⟩ := pair₂
      obtain ⟨k₁, ha1, ha2, ha3, ha4, ha5⟩ := copySlugProbe_some st₁ pr sN sS
        (st₁.prompts.length + 1) 1 (by omega) nm₁ sl₁ hres₁
      obtain ⟨k₂, hb1, hb2, hb3, hb4, hb5⟩ := copySlugProbe_some st₂ pr sN sS
        (st₂.prompts.length + 1) 1 (by omega) nm₂ sl₂ hres₂
      have hkk : k₁ = k₂ := by
        rcases Nat.lt_trichotomy k₁ k₂ with hlt | heq | hgt
        · have ht := hb5 k₁ ha1 hlt
          rw [← hslug (copySlug sS k₁), ha4] at ht
          exact absurd ht (by simp)
        · exact heq
        · have ht := ha5 k₂ hb1 hgt
          rw [hslug (copySlug sS k₂), hb4] at ht
          exact absurd ht (by simp)
      subst hkk
      rw [ha2, hb2, ha3, hb3]

theorem copyPrompt_scopeEq (st₁ st₂ : PromptStore) (e : EntityId)
    (h : PScopeEq e.tenantId e.projectId st₁ st₂) :
    PPairResultEq e.tenantId e.projectId (copyPrompt st₁ e) (copyPrompt st₂ e) := by
  obtain ⟨hP, hV, hR, hNP, hNV, hNR⟩ := h
  unfold copyPrompt
  rw [findPromptById_scopeEq e st₁ st₂ hP]
  cases findPromptById st₂ e with
  | none => exact rfl
  | some src =>
    dsimp only
    have hprobe : copySlugProbe st₁ e.getProjectId src.name src.slug
        (st₁.prompts.length + 1) 1 (src.name ++ " Copy") (src.slug ++ "-copy") =
      copySlugProbe st₂ e.getProjectId src.name src.slug
        (st₂.prompts.length + 1) 1 (src.name ++ " Copy") (src.slug ++ "-copy") :=
      copySlugProbe_scopeEq st₁ st₂ e.getProjectId src.name src.slug hP
    rw [hprobe]
    cases copySlugProbe st₂ e.getProjectId src.name src.slug
        (st₂.prompts.length + 1) 1 (src.name ++ " Copy") (src.slug ++ "-copy") with
    | none => exact rfl
    | some pair =>
      obtain ⟨nm, sl⟩ := pair
      dsimp only [createPrompt, createPromptVersion, createPromptRouter]
      refine ⟨⟨?_, ?_, ?_, congrArg Nat.succ hNP, congrArg Nat.succ hNV,
        congrArg Nat.succ hNR⟩, ?_⟩
      · rw [hNP]
        exact filter_append_scoped _ _ _ _ hP
      · rw [hNP, hNV]
        exact filter_append_scoped _ _ _ _ hV
      · rw [hNP, hNR]
        exact filter_append_scoped _ _ _ _ hR
      · rw [hNP]

theorem copyPrompt_frame (st : PromptStore) (e : EntityId) (st' : PromptStore) (p : Prompt)
    (hok : copyPrompt st e = .ok (st', p)) : POffFrame e.tenantId e.projectId st st' := by
  unfold copyPrompt at hok
  cases hcur : findPromptById st e with
  | none => rw [hcur] at hok; cases hok
  | some src =>
    rw [hcur] at hok
    dsimp only at hok
    cases hprobe : copySlugProbe st e.getProjectId src.name src.slug
        (st.prompts.length + 1) 1 (src.name ++ " Copy") (src.slug ++ "-copy") with
    | none => rw [hprobe] at hok; cases hok
    | some pair =>
      obtain ⟨nm, sl⟩ := pair
      rw [hprobe] at hok
      dsimp only [createPrompt, createPromptVersion, createPromptRouter] at hok
      cases hok
      exact ⟨filter_append_frame st.prompts _ _ (by simp [pScope]),
        filter_append_frame st.promptVersions _ _ (by simp [vScope]),
        filter_append_frame st.promptRouters _ _ (by simp [rScope])⟩

theorem createDataSetRecord_scopeEq (st₁ st₂ : DataSetStore) (e : EntityId) (vars : Json)
    (h : DScopeEq e.tenantId e.projectId st₁ st₂) :
    DPairResultEq e.tenantId e.projectId (createDataSetRecord st₁ e vars)
      (createDataSetRecord st₂ e vars) := by
  obtain ⟨hD, hRec, hND, hNRc, hCl⟩ := h
  unfold createDataSetRecord
  rw [dsFindById_scopeEq e st₁ st₂ hD]
  cases dsFindById st₂ e with
  | none => exact rfl
  | some ds =>
    dsimp only [dsCreateMany]
    rw [incrementRecordCountBy_ne _ e (1 : Int) one_ne_zero,
      incrementRecordCountBy_ne _ e (1 : Int) one_ne_zero]
    dsimp only [dsUpdateSchema]
    refine ⟨⟨?_, ?_, hND, congrArg Nat.succ hNRc, congrArg Nat.succ hCl⟩, ?_⟩
    · exact filter_updateWhere_eq _ _ _ _ _ (fun a => rfl)
        (filter_updateWhere_eq st₁.dataSets st₂.dataSets _ _ _ (fun a => rfl) hD)
    · rw [hNRc, hCl]
      exact filter_append_scoped _ _ _ _ hRec
    · rw [hNRc, hCl]

theorem createDataSetRecord_frame (st : DataSetStore) (e : EntityId) (vars : Json)
    (st' : DataSetStore) (r : DataSetRecord)
    (hok : createDataSetRecord st e vars = .ok (st', r)) :
    DOffFrame e.tenantId e.projectId st st' := by
  unfold createDataSetRecord at hok
  cases hds : dsFindById st e with
  | none => rw [hds] at hok; cases hok
  | some ds =>
    rw [hds] at hok
    dsimp only [dsCreateMany] at hok
    rw [incrementRecordCountBy_ne _ e (1 : Int) one_ne_zero] at hok
    dsimp only [dsUpdateSchema] at hok
    cases hok
    have h1 := filter_updateWhere_frame
      (st.dataSets.map (fun d => if dataSetWhere e d then
        { d with countOfRecords := d.countOfRecords + 1 } else d))
      (dScope e.tenantId e.projectId) (dataSetWhere e)
      (fun d => { d with
        schema := stringifySchema (mergeSchema (parseSchema ds.schema) vars) })
      (dataSetWhere_scope e) (fun a => rfl)
    have h2 := filter_updateWhere_frame st.dataSets
      (dScope e.tenantId e.projectId) (dataSetWhere e)
      (fun d => { d with countOfRecords := d.countOfRecords + 1 })
      (dataSetWhere_scope e) (fun a => rfl)
    exact ⟨h1.trans h2, filter_append_frame st.records _ _ (by simp [recScope])⟩

theorem listPaginated_scopeEq (st₁ st₂ : DataSetStore) (e : EntityId) (pg : Pagination)
    (hRec : st₁.records.filter (recScope e.tenantId e.projectId) =
      st₂.records.filter (recScope e.tenantId e.projectId)) :
    listDataSetRecordsPaginated st₁ e pg = listDataSetRecordsPaginated st₂ e pg := by
  have hq : st₁.records.filter (fun r => recordScopeWhere e r && !r.isDeleted) =
      st₂.records.filter (fun r => recordScopeWhere e r && !r.isDeleted) :=
    filter_scopeEq _ _ _ _ (recordLiveWhere_scope e) hRec
  unfold listDataSetRecordsPaginated listByDataSetPaginated
  dsimp only
  rw [hq]

theorem deleteDataSetRecords_scopeEq (st₁ st₂ : DataSetStore) (e : EntityId)
    (recordIds : List Nat) (h : DScopeEq e.tenantId e.projectId st₁ st₂) :
    (deleteDataSetRecords st₁ e recordIds).2 = (deleteDataSetRecords st₂ e recordIds).2 ∧
      DScopeEq e.tenantId e.projectId (deleteDataSetRecords st₁ e recordIds).1
        (deleteDataSetRecords st₂ e recordIds).1 := by
  obtain ⟨hD, hRec, hND, hNRc, hCl⟩ := h
  have hcount : st₁.records.countP (softDeleteManyWhere e recordIds) =
      st₂.records.countP (softDeleteManyWhere e recordIds) := by
    rw [List.countP_eq_length_filter, List.countP_eq_length_filter,
      filter_scopeEq st₁.records st₂.records _ _
        (softDeleteManyWhere_scope e recordIds) hRec]
  unfold deleteDataSetRecords dsSoftDeleteMany
  by_cases hemp : recordIds.isEmpty = true
  · rw [if_pos hemp, if_pos hemp]
    dsimp only
    rw [if_neg (by decide : ¬(0 : Nat) > 0), if_neg (by decide : ¬(0 : Nat) > 0)]
    exact ⟨rfl, hD, hRec, hND, hNRc, hCl⟩
  · rw [if_neg hemp, if_neg hemp]
    dsimp only
    rw [hcount]
    by_cases hpos : st₂.records.countP (softDeleteManyWhere e recordIds) > 0
    · rw [if_pos hpos, if_pos hpos]
      have hne : ¬-((st₂.records.countP (softDeleteManyWhere e recordIds) : Nat) : Int) = 0 := by
        omega
      rw [incrementRecordCountBy_ne _ e _ hne, incrementRecordCountBy_ne _ e _ hne]
      refine ⟨rfl, ?_, filter_updateWhere_eq st₁.records st₂.records _ _ _
        (fun a => rfl) hRec, hND, hNRc, hCl⟩
      exact filter_updateWhere_eq st₁.dataSets st₂.dataSets _ _ _ (fun a => rfl) hD
    · rw [if_neg hpos, if_neg hpos]
      exact ⟨rfl, hD, filter_updateWhere_eq st₁.records st₂.records _ _ _
        (fun a => rfl) hRec, hND, hNRc, hCl⟩

theorem deleteDataSetRecords_frame (st : DataSetStore) (e : EntityId)
    (recordIds : List Nat) :
    DOffFrame e.tenantId e.projectId st (deleteDataSetRecords st e recordIds).1 := by
  unfold deleteDataSetRecords dsSoftDeleteMany
  by_cases hemp : recordIds.isEmpty = true
  · rw [if_pos hemp]
    dsimp only
    rw [if_neg (by decide : ¬(0 : Nat) > 0)]
    exact ⟨rfl, rfl⟩
  · rw [if_neg hemp]
    dsimp only
    by_cases hpos : st.records.countP (softDeleteManyWhere e recordIds) > 0
    · rw [if_pos hpos]
      have hne : ¬-((st.records.countP (softDeleteManyWhere e recordIds) : Nat) : Int) = 0 := by
        omega
      rw [incrementRecordCountBy_ne _ e _ hne]
      dsimp only
      exact ⟨filter_updateWhere_frame st.dataSets _ _ _
          (dataSetWhere_scope e) (fun a => rfl),
        filter_updateWhere_frame st.records _ _ _
          (softDeleteManyWhere_scope e recordIds) (fun a => rfl)⟩
    · rw [if_neg hpos]
      exact ⟨rfl, filter_updateWhere_frame st.records _ _ _
        (softDeleteManyWhere_scope e recordIds) (fun a => rfl)⟩

/-- Everything the tenant-isolation claim asserts at one caller scope
`(e.tenantId, e.projectId)` and one choice of arguments: every covered read
(by-id and by-slug lookups, the active-version resolution, the
slug-collision probe of `copyPrompt`) returns the same answer on any two
stores that agree on the caller's scope, every covered write
(`updatePrompt`, `setRouterVersion`, `copyPrompt`, `renamePrompt`,
`createDataSetRecord`, `deleteDataSetRecords`) produces scope-equal results
with equal returned values and error messages on such stores, and every
covered write leaves all rows outside the caller's scope untouched. -/
def TenantIsolated (e : EntityId) (st₁ st₂ : PromptStore) (dst₁ dst₂ : DataSetStore)
    (input : UpdatePromptInput) (newName : String) (version : Nat) (slug : String)
    (sN sS : String) (vars : Json) (recordIds : List Nat) (pg : Pagination) : Prop :=
  findPromptById st₁ e = findPromptById st₂ e ∧
  findPromptBySlug st₁ e.getProjectId slug = findPromptBySlug st₂ e.getProjectId slug ∧
  getActivePromptVersion st₁ e = getActivePromptVersion st₂ e ∧
  copySlugProbe st₁ e.getProjectId sN sS (st₁.prompts.length + 1) 1
      (copyName sN 1) (copySlug sS 1) =
    copySlugProbe st₂ e.getProjectId sN sS (st₂.prompts.length + 1) 1
      (copyName sN 1) (copySlug sS 1) ∧
  PResultEq e.tenantId e.projectId (svcUpdatePrompt st₁ e input)
    (svcUpdatePrompt st₂ e input) ∧
  (∀ st', svcUpdatePrompt st₁ e input = .ok st' →
    POffFrame e.tenantId e.projectId st₁ st') ∧
  PResultEq e.tenantId e.projectId (setRouterVersion st₁ e version)
    (setRouterVersion st₂ e version) ∧
  (∀ st', setRouterVersion st₁ e version = .ok st' →
    POffFrame e.tenantId e.projectId st₁ st') ∧
  PPairResultEq e.tenantId e.projectId (copyPrompt st₁ e) (copyPrompt st₂ e) ∧
  (∀ st' p, copyPrompt st₁ e = .ok (st', p) →
    POffFrame e.tenantId e.projectId st₁ st') ∧
  PPairResultEq e.tenantId e.projectId (renamePrompt st₁ e newName)
    (renamePrompt st₂ e newName) ∧
  (∀ st' p, renamePrompt st₁ e newName = .ok (st', p) →
    POffFrame e.tenantId e.projectId st₁ st') ∧
  DPairResultEq e.tenantId e.projectId (createDataSetRecord dst₁ e vars)
    (createDataSetRecord dst₂ e vars) ∧
  (∀ st' r, createDataSetRecord dst₁ e vars = .ok (st', r) →
    DOffFrame e.tenantId e.projectId dst₁ st') ∧
  listDataSetRecordsPaginated dst₁ e pg = listDataSetRecordsPaginated dst₂ e pg ∧
  (deleteDataSetRecords dst₁ e recordIds).2 = (deleteDataSetRecords dst₂ e recordIds).2 ∧
  DScopeEq e.tenantId e.projectId (deleteDataSetRecords dst₁ e recordIds).1
    (deleteDataSetRecords dst₂ e recordIds).1 ∧
  DOffFrame e.tenantId e.projectId dst₁ (deleteDataSetRecords dst₁ e recordIds).1

/-- C9: every covered operation is tenant-isolated.  Two stores that agree
on the caller's `(tenantId, projectId)` scope (and on the autoincrement
counters and clock) are indistinguishable to every read, collision probe and
write of the core under that scope, and the writes never modify rows of any
other scope - because every query predicate built from
`EntityId.toWhereClause` (or the inline scope conjunctions of the slug,
router, version and record queries) conjoins the caller's `tenantId` and
`projectId`. -/
theorem tenant_isolation (e : EntityId) (st₁ st₂ : PromptStore)
    (dst₁ dst₂ : DataSetStore) (input : UpdatePromptInput) (newName : String)
    (version : Nat) (slug : String) (sN sS : String) (vars : Json)
    (recordIds : List Nat) (pg : Pagination)
    (hp : PScopeEq e.tenantId e.projectId st₁ st₂)
    (hd : DScopeEq e.tenantId e.projectId dst₁ dst₂) :
    TenantIsolated e st₁ st₂ dst₁ dst₂ input newName version slug sN sS vars
      recordIds pg :=
  ⟨findPromptById_scopeEq e st₁ st₂ hp.1,
   findPromptBySlug_scopeEq e.getProjectId slug st₁ st₂ hp.1,
   getActive_scopeEq e st₁ st₂ hp,
   copySlugProbe_scopeEq st₁ st₂ e.getProjectId sN sS hp.1,
   svcUpdatePrompt_scopeEq st₁ st₂ e input hp,
   fun st' hok => svcUpdatePrompt_frame st₁ e input st' hok,
   setRouterVersion_scopeEq st₁ st₂ e version hp,
   fun st' hok => setRouterVersion_frame st₁ e version st' hok,
   copyPrompt_scopeEq st₁ st₂ e hp,
   fun st' p hok => copyPrompt_frame st₁ e st' p hok,
   renamePrompt_scopeEq st₁ st₂ e newName hp,
   fun st' p hok => renamePrompt_frame st₁ e newName st' p hok,
   createDataSetRecord_scopeEq dst₁ dst₂ e vars hd,
   fun st' r hok => createDataSetRecord_frame dst₁ e vars st' r hok,
   listPaginated_scopeEq dst₁ dst₂ e pg hd.2.1,
   (deleteDataSetRecords_scopeEq dst₁ dst₂ e recordIds hd).1,
   (deleteDataSetRecords_scopeEq dst₁ dst₂ e recordIds hd).2,
   deleteDataSetRecords_frame dst₁ e recordIds⟩

/-- Caller identity of the isolation scenario: tenant 1, project 1, row 1. -/
def isoEnt : EntityId := ⟨1, 1, 1, "u"⟩

/-- Scope-1 prompt store of the isolation scenario. -/
def isoPromptA : PromptStore :=
  ⟨[⟨1, 1, 1, "X", "x", "openai", "gpt", "b1", 1, true⟩],
   [⟨1, 1, 1, 1, 1, "X", "openai", "gpt", "b1", "x"⟩],
   [⟨1, 1, 1, 1, 1⟩], 2, 2, 2⟩

/-- The same prompt store with one extra prompt (holding the slug
`"x-copy"`), ledger entry and router, all belonging to tenant 2. -/
def isoPromptB : PromptStore :=
  ⟨[⟨1, 1, 1, "X", "x", "openai", "gpt", "b1", 1, true⟩,
    ⟨5, 2, 1, "Y", "x-copy", "p", "m", "b", 1, true⟩],
   [⟨1, 1, 1, 1, 1, "X", "openai", "gpt", "b1", "x"⟩,
    ⟨6, 5, 2, 1, 1, "Y", "p", "m", "b", "x-copy"⟩],
   [⟨1, 1, 1, 1, 1⟩, ⟨7, 5, 2, 1, 1⟩], 2, 2, 2⟩

/-- Scope-1 dataset store of the isolation scenario. -/
def isoDsA : DataSetStore :=
  ⟨[⟨1, 1, 1, "D", "d", false, 1, "{}"⟩],
   [⟨1, 1, 1, 1, "{}", false, 0⟩], 2, 2, 1⟩

/-- The same dataset store with one extra dataset and record belonging to
tenant 2. -/
def isoDsB : DataSetStore :=
  ⟨[⟨1, 1, 1, "D", "d", false, 1, "{}"⟩, ⟨7, 2, 1, "E", "e", false, 3, "x"⟩],
   [⟨1, 1, 1, 1, "{}", false, 0⟩, ⟨9, 2, 1, 7, "{}", false, 5⟩], 2, 2, 1⟩

/-- The isolation theorem instantiated at the concrete scenario: adding a
foreign-tenant row to every table (including one carrying the very slug the
copy probe would test first) changes no covered operation's outcome. -/
theorem tenant_isolation_witness :
    TenantIsolated isoEnt isoPromptA isoPromptB isoDsA isoDsB
      {} "X2" 1 "x" "X" "x" (Json.obj [("a", Json.str "v")]) [1] ⟨1, 10⟩ :=
  tenant_isolation isoEnt isoPromptA isoPromptB isoDsA isoDsB
    {} "X2" 1 "x" "X" "x" (Json.obj [("a", Json.str "v")]) [1] ⟨1, 10⟩
    ⟨rfl, rfl, rfl, rfl, rfl, rfl⟩ ⟨rfl, rfl, rfl, rfl, rfl⟩
